import Mathlib

/-!
Shallow embedding of the configuration-reconciliation core of
`fwp_lab_instruments.py` (classes `Osci` and `Gen`), together with proofs
about the keyword normalizers, the state cache and the reconcilers.

Python strings are modelled as Lean `String`; the Python substring test
`pat in s` is `pyIn pat s`; `str.lower()` is `pyLower`; the numeric
parameters are modelled as `Rat`; the device transport is a function from
the index of the write attempt to success or failure.
-/

/-- Model of Python list/str containment starting check: does `s` start with `pat`. -/
def startsL : List Char → List Char → Bool
  | [], _ => true
  | _ :: _, [] => false
  | a :: as, b :: bs => a == b && startsL as bs

/-- Model of the Python substring test: does `pat` occur contiguously in `s`. -/
def containsL (pat : List Char) : List Char → Bool
  | [] => startsL pat []
  | s@(_ :: t) => startsL pat s || containsL pat t

/-- Python `pat in s` on strings. -/
def pyIn (pat s : String) : Bool := containsL pat.toList s.toList

/-- Python `s.lower()` (ASCII case folding, as `Char.toLower`). -/
def pyLower (s : String) : String := ⟨s.toList.map Char.toLower⟩

/-- The measurement-type vocabulary of `Osci.re_config_measure` (source
lines 245-259), in declaration order. -/
def osciDic : List (String × String) :=
  [("mean", "MEAN"), ("min", "MINI"), ("max", "MAXI"), ("freq", "FREQ"),
   ("per", "PER"), ("rms", "RMS"), ("pk2", "PK2"), ("amp", "PK2"),
   ("ph", "PHA"), ("crms", "CRM"), ("cmean", "CMEAN"), ("rise", "RIS"),
   ("fall", "FALL"), ("low", "LOW"), ("high", "HIGH")]

/-- The waveform vocabulary of `Gen.re_config_output` (source lines
626-633), in declaration order. -/
def genDic : List (String × String) :=
  [("sin", "SIN"), ("squ", "PULS"), ("pul", "PULS"), ("tri", "RAMP"),
   ("ram", "RAMP"), ("lor", "LOR"), ("sinc", "SINC"), ("gau", "GAUS")]

/-- The Osci scan loop (source lines 272-274): `aux` starts unbound
(modelled as `none`) and is overwritten by the token of every matching
key, the input string `m` never changing during the loop. -/
def scanLast (m : String) : List (String × String) → Option String → Option String
  | [], acc => acc
  | (k, v) :: rest, acc => scanLast m rest (if pyIn k m then some v else acc)

/-- The Gen scan loop (source lines 645-647): the scanned variable itself
is overwritten by the token of a matching key, so later keys are tested
against the substituted token instead of the raw input. -/
def genScan : List (String × String) → String → String
  | [], w => w
  | (k, v) :: rest, w => genScan rest (if pyIn k w then v else w)

/-- The measurement-type normalizer of `Osci.re_config_measure` (source
lines 266-277).  Returns `none` when the Python code raises
`UnboundLocalError` (no key matched, so `aux` was never assigned before
the `aux not in dic.values()` test); otherwise the token and whether the
default warning was printed. -/
def osciType (mtype : String) : Option (String × Bool) :=
  if pyIn "c" (pyLower mtype) then
    some (if pyIn "rms" (pyLower mtype) then "CRM" else "CMEAN", false)
  else
    match scanLast (pyLower mtype) osciDic none with
    | none => none
    | some aux =>
      if osciDic.any (fun kv => kv.2 == aux) then some (aux, false)
      else some ("FREQ", true)

/-- The waveform normalizer of `Gen.re_config_output` (source lines
640-650): lower the input, special-case any input containing a `c`,
otherwise run the scan loop and fall back to `SIN` with a warning when
the result is not one of the canonical tokens. -/
def genWaveform (s : String) : String × Bool :=
  if pyIn "c" (pyLower s) then ("SINC", false)
  else
    if genDic.any (fun kv => kv.2 == genScan genDic (pyLower s)) then
      (genScan genDic (pyLower s), false)
    else ("SIN", true)

/-- Modelled from the spec words for claim C1: the token of the last key
(in table iteration order) whose substring is contained in the input. -/
def specLastMatch : List (String × String) → String → Option String
  | [], _ => none
  | (k, v) :: rest, m =>
    match specLastMatch rest m with
    | some w => some w
    | none => if pyIn k m then some v else none

/-- Modelled from the spec words for claim C1: the token of the first key
(in table iteration order) whose substring is contained in the input. -/
def specFirstMatch : List (String × String) → String → Option String
  | [], _ => none
  | (k, v) :: rest, m => if pyIn k m then some v else specFirstMatch rest m

/-- Number of vocabulary keys contained in the input. -/
def matchCount (t : List (String × String)) (m : String) : Nat :=
  (t.filter fun kv => pyIn kv.1 m).length

/-- One channel entry of the cache dictionary `Gen.config_output` (source
lines 520-528).  The key `Duty Cycle` can be absent from the per-channel
dictionary (see `Gen.get_config_output`, lines 564-571), hence `Option`;
all other keys are always present. -/
structure ChanConf where
  status : Bool
  wave : String
  freq : Rat
  ampl : Rat
  offs : Rat
  phase : Rat
  duty : Option Rat
  symm : Rat
deriving DecidableEq, Inhabited

/-- The whole cache dictionary `Gen.config_output`: per-channel entries,
plus the stray top-level `Duty Cycle` key that `Gen.get_config_output`
line 568 writes next to the channel entries. -/
structure GenConfig where
  chans : Nat → ChanConf
  topDuty : Option Rat

/-- Python `self.config_output[channel]`. -/
def getChan (cfg : GenConfig) (ch : Nat) : ChanConf := cfg.chans ch

/-- Python `self.config_output[channel][key] = value`. -/
def updChan (cfg : GenConfig) (ch : Nat) (f : ChanConf → ChanConf) : GenConfig :=
  { cfg with chans := fun c => if c = ch then f (cfg.chans c) else cfg.chans c }

/-- One device write command of `Gen.re_config_output`, identified by the
targeted field, the channel and the value (the exact command string
formatting is irrelevant to the claims). -/
inductive GCmd
  | shape (ch : Nat) (w : String)
  | freq (ch : Nat) (v : Rat)
  | ampl (ch : Nat) (v : Rat)
  | offs (ch : Nat) (v : Rat)
  | phase (ch : Nat) (v : Rat)
  | duty (ch : Nat) (v : Rat)
  | symm (ch : Nat) (v : Rat)
deriving DecidableEq

/-- Exceptions that can escape `Gen.re_config_output`: the two explicit
`ValueError` raises (lines 708 and 720), a `KeyError` from reading the
absent `Duty Cycle` cache key (line 709), and a transport failure of a
device write. -/
inductive GErr
  | valueDuty
  | valueSymm
  | keyDuty
  | transport (c : GCmd)
deriving DecidableEq

/-- The cache assignment performed right after each successful device
write in `Gen.re_config_output` (lines 657, 667, 678, 689, 700, 713,
725): the written value overwrites the corresponding cache field. -/
def applyW (cfg : GenConfig) : GCmd → GenConfig
  | .shape ch w => updChan cfg ch fun c => { c with wave := w }
  | .freq ch v => updChan cfg ch fun c => { c with freq := v }
  | .ampl ch v => updChan cfg ch fun c => { c with ampl := v }
  | .offs ch v => updChan cfg ch fun c => { c with offs := v }
  | .phase ch v => updChan cfg ch fun c => { c with phase := v }
  | .duty ch v => updChan cfg ch fun c => { c with duty := some v }
  | .symm ch v => updChan cfg ch fun c => { c with symm := v }

/-- What one field block of `Gen.re_config_output` decides to do at the
current cache state: nothing, write one command, or raise. -/
inductive FStep
  | skip
  | write (c : GCmd)
  | fail (e : GErr)

/-- One of the seven sequential field blocks of `Gen.re_config_output`. -/
structure FieldB where
  act : GenConfig → FStep

/-- Outcome of running the field blocks: escaped exception (if any),
final cache, successful writes in order, and index after the last write
attempt. -/
structure RFOut where
  err : Option GErr
  cfg : GenConfig
  ws : List GCmd
  att : Nat

/-- Sequential execution of the field blocks of `Gen.re_config_output`
(lines 654-728): a raise stops the run; a write is attempted on the
transport `tr` (indexed by the number of write attempts so far) and, when
it succeeds, the cache is updated before the next block runs. -/
def runFields (tr : Nat → Bool) (k : Nat) (cfg : GenConfig) : List FieldB → RFOut
  | [] => ⟨none, cfg, [], k⟩
  | b :: bs =>
    match b.act cfg with
    | .skip => runFields tr k cfg bs
    | .fail e => ⟨some e, cfg, [], k⟩
    | .write c =>
      if tr k then
        { runFields tr (k + 1) (applyW cfg c) bs with
          ws := c :: (runFields tr (k + 1) (applyW cfg c) bs).ws }
      else ⟨some (.transport c), cfg, [], k + 1⟩

/-- The waveform block (lines 654-661). -/
def wvB (ch : Nat) (wv : String) : FieldB :=
  ⟨fun cfg => if (getChan cfg ch).wave ≠ wv then .write (.shape ch wv) else .skip⟩

/-- A plain numeric block: frequency (663-671), amplitude (673-682),
offset (684-693) or phase (695-704). -/
def numB (ch : Nat) (arg : Option Rat) (get : ChanConf → Rat)
    (mk : Nat → Rat → GCmd) : FieldB :=
  ⟨fun cfg =>
    match arg with
    | none => .skip
    | some v => if get (getChan cfg ch) ≠ v then .write (mk ch v) else .skip⟩

/-- The duty-cycle block (lines 706-716): raises `ValueError` unless the
effective waveform is `PULS`, then reads the cache key `Duty Cycle`
(raising `KeyError` when the key is absent) and writes on difference. -/
def dutyB (ch : Nat) (arg : Option Rat) (wv : String) : FieldB :=
  ⟨fun cfg =>
    match arg with
    | none => .skip
    | some d =>
      if wv ≠ "PULS" then .fail .valueDuty
      else
        match (getChan cfg ch).duty with
        | none => .fail .keyDuty
        | some dc => if dc ≠ d then .write (.duty ch d) else .skip⟩

/-- The symmetry block (lines 718-728): raises `ValueError` unless the
effective waveform is `RAMP`. -/
def symmB (ch : Nat) (arg : Option Rat) (wv : String) : FieldB :=
  ⟨fun cfg =>
    match arg with
    | none => .skip
    | some sv =>
      if wv ≠ "RAMP" then .fail .valueSymm
      else if (getChan cfg ch).symm ≠ sv then .write (.symm ch sv) else .skip⟩

/-- The seven field blocks of `Gen.re_config_output` in source order. -/
def genBlocks (ch : Nat) (wv : String) (fA aA oA pA dA sA : Option Rat) : List FieldB :=
  [wvB ch wv, numB ch fA ChanConf.freq GCmd.freq, numB ch aA ChanConf.ampl GCmd.ampl,
   numB ch oA ChanConf.offs GCmd.offs, numB ch pA ChanConf.phase GCmd.phase,
   dutyB ch dA wv, symmB ch sA wv]

/-- Channel coercion of `Gen.re_config_output` (lines 635-637): out of
`range(1, nchannels + 1)` falls back to channel 1. -/
def coerceCh (n channel : Nat) : Nat :=
  if 1 ≤ channel ∧ channel ≤ n then channel else 1

/-- Waveform resolution of `Gen.re_config_output` (lines 640-652): a
supplied string is normalized, `None` falls back to the cached waveform
of the channel.  The boolean records the default-waveform warning. -/
def wvResolve (cfg : GenConfig) (ch : Nat) : Option String → String × Bool
  | some s => genWaveform s
  | none => ((getChan cfg ch).wave, false)

/-- Result of one `Gen.re_config_output` call. -/
structure GRes where
  cfg : GenConfig
  writes : List GCmd
  err : Option GErr
  attempts : Nat
  chanWarn : Bool
  waveWarn : Bool

/-- Packaging of the run outcome together with the two warnings. -/
def mkGRes (cw ww : Bool) (r : RFOut) : GRes := ⟨r.cfg, r.ws, r.err, r.att, cw, ww⟩

namespace Gen

/-- Shallow embedding of `Gen.re_config_output` (source lines 583-730):
channel coercion, waveform resolution, then the seven field blocks in
sequence over the transport `tr`. -/
def re_config_output (n : Nat) (tr : Nat → Bool) (cfg0 : GenConfig) (channel : Nat)
    (waveform : Option String)
    (frequency amplitude offset phase duty_cycle symmetry : Option Rat) : GRes :=
  mkGRes (!decide (1 ≤ channel ∧ channel ≤ n))
    (wvResolve cfg0 (coerceCh n channel) waveform).2
    (runFields tr 0 cfg0
      (genBlocks (coerceCh n channel) (wvResolve cfg0 (coerceCh n channel) waveform).1
        frequency amplitude offset phase duty_cycle symmetry))

end Gen

/-- Device-side responses seen by `Gen.get_config_output` for one
channel; `dutyQ`/`symmQ` are `none` when the corresponding query raises
(the `except` branches of lines 570 and 578). -/
structure GDevChan where
  status : Bool
  wave : String
  freq : Rat
  ampl : Rat
  offs : Rat
  phase : Rat
  dutyQ : Option Rat
  symmQ : Option Rat
deriving DecidableEq

/-- Per-channel dictionary built by the loop body of
`Gen.get_config_output` (lines 534-579): when the duty-cycle query
succeeds its value is NOT stored in the channel entry (line 568 writes it
at top level instead), and only the failing branch stores the 50.0
default under the channel; symmetry is stored under the channel in both
branches. -/
def getChanConf (d : GDevChan) : ChanConf :=
  { status := d.status, wave := d.wave, freq := d.freq, ampl := d.ampl,
    offs := d.offs, phase := d.phase,
    duty :=
      match d.dutyQ with
      | some _ => none
      | none => some 50,
    symm :=
      match d.symmQ with
      | some v => v
      | none => 50 }

namespace Gen

/-- Shallow embedding of `Gen.get_config_output` (source lines 508-581)
for a device with `devs.length` channels. -/
def get_config_output (devs : List GDevChan) : GenConfig :=
  { chans := fun c =>
      match devs[c - 1]? with
      | some d => getChanConf d
      | none => default,
    topDuty :=
      devs.foldl
        (fun acc d =>
          match d.dutyQ with
          | some v => some v
          | none => acc)
        none }

end Gen

/-- The cache dictionary `Osci.config_measure` (keys `Source», `Type`). -/
structure OsciConf where
  src : Nat
  typ : String
deriving DecidableEq

/-- Oscilloscope device state relevant to the immediate-measurement
configuration. -/
structure OsciDev where
  src : Nat
  typ : String
deriving DecidableEq

/-- Bus operations issued by `Osci.re_config_measure`: the two writes
(lines 281 and 285) and the two queries of `Osci.get_config_measure`
(lines 215-218). -/
inductive OOp
  | wSou (ch : Nat)
  | wTyp (t : String)
  | qSou
  | qTyp
deriving DecidableEq

/-- Whether a bus operation is a query (device read). -/
def isQueryOp : OOp → Bool
  | .qSou => true
  | .qTyp => true
  | _ => false

/-- Result of one `Osci.re_config_measure` call: final cache, final
device state, bus operations in order, whether `UnboundLocalError`
escaped, and the two warnings. -/
structure ORes where
  cache : OsciConf
  dev : OsciDev
  ops : List OOp
  err : Bool
  chanWarn : Bool
  typWarn : Bool
deriving DecidableEq

/-- Channel coercion of `Osci.re_config_measure` (lines 261-263). -/
def osciCh (channel : Nat) : Nat := if channel = 1 ∨ channel = 2 then channel else 1

/-- The conditional source write (lines 280-283). -/
def souStep (cache : OsciConf) (dev : OsciDev) (ch : Nat) : OsciDev × List OOp :=
  if cache.src ≠ ch then ({ dev with src := ch }, [.wSou ch]) else (dev, [])

/-- The conditional type write (lines 284-286). -/
def typStep (cache : OsciConf) (dev : OsciDev) (aux : String) : OsciDev × List OOp :=
  if cache.typ ≠ aux then ({ dev with typ := aux }, [.wTyp aux]) else (dev, [])

namespace Osci

/-- Shallow embedding of `Osci.get_config_measure` (lines 198-220): two
queries, answered from the device state. -/
def get_config_measure (dev : OsciDev) : OsciConf := ⟨dev.src, dev.typ⟩

/-- Shallow embedding of `Osci.re_config_measure` (lines 222-290):
normalize the measurement type (raising when no key matches), coerce the
channel, write the differing fields, then refresh the whole cache by
re-querying the device (line 288). -/
def re_config_measure (cache : OsciConf) (dev : OsciDev) (mtype : String)
    (channel : Nat) : ORes :=
  match osciType mtype with
  | none => ⟨cache, dev, [], true, !decide (channel = 1 ∨ channel = 2), false⟩
  | some (aux, tw) =>
    ⟨get_config_measure (typStep cache (souStep cache dev (osciCh channel)).1 aux).1,
     (typStep cache (souStep cache dev (osciCh channel)).1 aux).1,
     (souStep cache dev (osciCh channel)).2 ++
       (typStep cache (souStep cache dev (osciCh channel)).1 aux).2 ++ [.qSou, .qTyp],
     false, !decide (channel = 1 ∨ channel = 2), tw⟩

end Osci

/-- The always-succeeding transport. -/
def trOK : Nat → Bool := fun _ => true

/-- Sequential composition of two runs. -/
def seqOut (r : RFOut) (tr : Nat → Bool) (ys : List FieldB) : RFOut :=
  match r.err with
  | some _ => r
  | none => { runFields tr r.att r.cfg ys with ws := r.ws ++ (runFields tr r.att r.cfg ys).ws }

/-- A block is stable when, right after its own write has been applied to
the cache, it would decide to do nothing. -/
def Stable (b : FieldB) : Prop :=
  ∀ cfg c, b.act cfg = .write c → b.act (applyW cfg c) = .skip

/-- The decision of block `b` is unaffected by the cache effect of any
write of block `b'`. -/
def PAct (b b' : FieldB) : Prop :=
  ∀ cfg c, b'.act cfg = .write c → b.act (applyW cfg c) = b.act cfg

/-- The writes the waveform block performs at a given cache state. -/
def wvChunk (ch : Nat) (wv : String) (cfg : GenConfig) : List GCmd :=
  if (getChan cfg ch).wave ≠ wv then [GCmd.shape ch wv] else []

/-- The writes a numeric block performs at a given cache state. -/
def numChunk (ch : Nat) (arg : Option Rat) (get : ChanConf → Rat)
    (mk : Nat → Rat → GCmd) (cfg : GenConfig) : List GCmd :=
  match arg with
  | none => []
  | some v => if get (getChan cfg ch) ≠ v then [mk ch v] else []

/-- The writes the duty-cycle block performs when it does not raise. -/
def dutyChunk (ch : Nat) (arg : Option Rat) (cfg : GenConfig) : List GCmd :=
  match arg, (getChan cfg ch).duty with
  | some d, some dc => if dc ≠ d then [GCmd.duty ch d] else []
  | _, _ => []

/-- The writes the symmetry block performs when it does not raise. -/
def symmChunk (ch : Nat) (arg : Option Rat) (cfg : GenConfig) : List GCmd :=
  match arg with
  | none => []
  | some sv => if (getChan cfg ch).symm ≠ sv then [GCmd.symm ch sv] else []

/-- Field index of a command (0 waveform, 1 frequency, 2 amplitude,
3 offset, 4 phase, 5 duty cycle, 6 symmetry). -/
def cmdF : GCmd → Nat
  | .shape _ _ => 0
  | .freq _ _ => 1
  | .ampl _ _ => 2
  | .offs _ _ => 3
  | .phase _ _ => 4
  | .duty _ _ => 5
  | .symm _ _ => 6

/-- The writes of the first five field blocks (waveform and the four
plain numeric parameters), all expressed against the initial cache. -/
def expW5 (cfg0 : GenConfig) (ch : Nat) (wv : String) (fA aA oA pA : Option Rat) : List GCmd :=
  wvChunk ch wv cfg0 ++ numChunk ch fA ChanConf.freq GCmd.freq cfg0 ++
    numChunk ch aA ChanConf.ampl GCmd.ampl cfg0 ++
    numChunk ch oA ChanConf.offs GCmd.offs cfg0 ++
    numChunk ch pA ChanConf.phase GCmd.phase cfg0

/-- All writes of an error-free `Gen.re_config_output` call, expressed
against the initial cache: one command per supplied field that differs
from the cached value. -/
def expW (cfg0 : GenConfig) (ch : Nat) (wv : String) (fA aA oA pA dA sA : Option Rat) : List GCmd :=
  expW5 cfg0 ch wv fA aA oA pA ++ dutyChunk ch dA cfg0 ++ symmChunk ch sA cfg0

/-- Number of supplied fields whose desired value differs from the cached
value (the claim's `k`). -/
def diffCount (cfg0 : GenConfig) (ch : Nat) (wv : String)
    (fA aA oA pA dA sA : Option Rat) : Nat :=
  (if (getChan cfg0 ch).wave ≠ wv then 1 else 0) +
  (match fA with
   | none => 0
   | some v => if (getChan cfg0 ch).freq ≠ v then 1 else 0) +
  (match aA with
   | none => 0
   | some v => if (getChan cfg0 ch).ampl ≠ v then 1 else 0) +
  (match oA with
   | none => 0
   | some v => if (getChan cfg0 ch).offs ≠ v then 1 else 0) +
  (match pA with
   | none => 0
   | some v => if (getChan cfg0 ch).phase ≠ v then 1 else 0) +
  (match dA, (getChan cfg0 ch).duty with
   | some d, some dc => if dc ≠ d then 1 else 0
   | _, _ => 0) +
  (match sA with
   | none => 0
   | some sv => if (getChan cfg0 ch).symm ≠ sv then 1 else 0)

/-- A concrete well-formed channel cache entry, used by the witnesses. -/
def chanW : ChanConf := ⟨true, "SIN", 1000, 1, 0, 0, some 50, 50⟩

/-- A concrete well-formed generator cache, used by the witnesses. -/
def cfgW : GenConfig := ⟨fun _ => chanW, none⟩

/-- Whether an escaped exception is one of the two explicit `ValueError`
raises of `Gen.re_config_output`. -/
def isValueErr : Option GErr → Bool
  | some .valueDuty => true
  | some .valueSymm => true
  | _ => false

theorem scanLast_eq_specLastMatch (m : String) (t : List (String × String))
    (acc : Option String) :
    scanLast m t acc =
      match specLastMatch t m with
      | some w => some w
      | none => acc := by
  induction t generalizing acc with
  | nil => rfl
  | cons kv rest ih =>
    obtain ⟨k, v⟩ := kv
    simp only [scanLast, specLastMatch, ih]
    cases h : specLastMatch rest m with
    | some w => rfl
    | none => by_cases hk : pyIn k m <;> simp [hk]

theorem specLastMatch_mem_values {t : List (String × String)} {m tok : String}
    (h : specLastMatch t m = some tok) : t.any (fun kv => kv.2 == tok) = true := by
  induction t with
  | nil => simp [specLastMatch] at h
  | cons kv rest ih =>
    obtain ⟨k, v⟩ := kv
    simp only [specLastMatch] at h
    cases hr : specLastMatch rest m with
    | some w =>
      rw [hr] at h
      cases h
      simp [List.any_cons, ih hr]
    | none =>
      rw [hr] at h
      by_cases hk : pyIn k m
      · simp [hk] at h
        simp [List.any_cons, h]
      · simp [hk] at h

theorem specFirstMatch_mem_values {t : List (String × String)} {m tok : String}
    (h : specFirstMatch t m = some tok) : t.any (fun kv => kv.2 == tok) = true := by
  induction t with
  | nil => simp [specFirstMatch] at h
  | cons kv rest ih =>
    obtain ⟨k, v⟩ := kv
    simp only [specFirstMatch] at h
    by_cases hk : pyIn k m
    · simp [hk] at h
      simp [List.any_cons, h]
    · simp [hk] at h
      simp [List.any_cons, ih h]

theorem genScan_of_no_match {t : List (String × String)} {w : String}
    (h : specFirstMatch t w = none) : genScan t w = w := by
  induction t with
  | nil => rfl
  | cons kv rest ih =>
    obtain ⟨k, v⟩ := kv
    simp only [specFirstMatch] at h
    by_cases hk : pyIn k w
    · simp [hk] at h
    · simp [hk] at h
      simp [genScan, hk, ih h]

theorem genScan_stable {t : List (String × String)} {x : String}
    (h : ∀ kv ∈ t, pyIn kv.1 x = false) : genScan t x = x := by
  induction t with
  | nil => rfl
  | cons kv rest ih =>
    obtain ⟨k, v⟩ := kv
    have hk := h (k, v) (List.mem_cons_self _ _)
    simp only [genScan, hk]
    simp only [Bool.false_eq_true, if_false]
    exact ih fun kv hkv => h kv (List.mem_cons_of_mem _ hkv)

theorem genScan_eq_specFirstMatch {t : List (String × String)} {w tok : String}
    (hcross : ∀ kv ∈ t, ∀ kv' ∈ t, pyIn kv.1 kv'.2 = false)
    (h : specFirstMatch t w = some tok) : genScan t w = tok := by
  induction t with
  | nil => simp [specFirstMatch] at h
  | cons kv rest ih =>
    obtain ⟨k, v⟩ := kv
    simp only [specFirstMatch] at h
    by_cases hk : pyIn k w
    · simp [hk] at h
      cases h
      simp only [genScan, hk, if_true]
      exact genScan_stable fun kv hkv =>
        hcross kv (List.mem_cons_of_mem _ hkv) (k, tok) (List.mem_cons_self _ _)
    · simp [hk] at h
      simp only [genScan, hk]
      simp only [Bool.false_eq_true, if_false]
      exact ih
        (fun kv hkv kv' hkv' =>
          hcross kv (List.mem_cons_of_mem _ hkv) kv' (List.mem_cons_of_mem _ hkv'))
        h

/-- No key of the waveform table occurs in any token of the table: the
keys are lower-case and the tokens upper-case. -/
theorem genDic_cross : ∀ kv ∈ genDic, ∀ kv' ∈ genDic, pyIn kv.1 kv'.2 = false := by
  decide

theorem char_toNat_ofNat {m : Nat} (h : m < 55296) : (Char.ofNat m).toNat = m := by
  rw [Char.ofNat, dif_pos (Or.inl h)]
  rfl

/-- ASCII case folding never produces an upper-case letter, so a lowered
string is never equal to an upper-case token. -/
theorem toLower_eq (c : Char) :
    Char.toLower c =
      if c.toNat ≥ 65 ∧ c.toNat ≤ 90 then Char.ofNat (c.toNat + 32) else c := rfl

theorem toLower_ne_upper (c u : Char) (hu : 65 ≤ u.toNat ∧ u.toNat ≤ 90) :
    Char.toLower c ≠ u := by
  intro he
  have ht : (Char.toLower c).toNat = u.toNat := by rw [he]
  rw [toLower_eq] at ht
  split at ht
  · rw [char_toNat_ofNat (by omega)] at ht
    omega
  · omega

theorem pyLower_ne (s t : String)
    (hc : ∃ u ∈ t.toList, 65 ≤ u.toNat ∧ u.toNat ≤ 90) : pyLower s ≠ t := by
  intro he
  obtain ⟨u, hu, hur⟩ := hc
  have hm : u ∈ (pyLower s).toList := by rw [he]; exact hu
  have hm' : u ∈ s.toList.map Char.toLower := hm
  obtain ⟨c, _, hc'⟩ := List.mem_map.mp hm'
  exact toLower_ne_upper c u hur hc'

theorem genDic_any_pyLower (s : String) :
    genDic.any (fun kv => kv.2 == pyLower s) = false := by
  have hS := Ne.symm (pyLower_ne s "SIN" ⟨'S', by decide, by decide⟩)
  have hP := Ne.symm (pyLower_ne s "PULS" ⟨'P', by decide, by decide⟩)
  have hR := Ne.symm (pyLower_ne s "RAMP" ⟨'R', by decide, by decide⟩)
  have hL := Ne.symm (pyLower_ne s "LOR" ⟨'L', by decide, by decide⟩)
  have hC := Ne.symm (pyLower_ne s "SINC" ⟨'S', by decide, by decide⟩)
  have hG := Ne.symm (pyLower_ne s "GAUS" ⟨'G', by decide, by decide⟩)
  simp [genDic, List.any_cons, beq_eq_false_iff_ne, hS, hP, hR, hL, hC, hG]

theorem specFirstMatch_eq_none {t : List (String × String)} {m : String}
    (h : ∀ kv ∈ t, pyIn kv.1 m = false) : specFirstMatch t m = none := by
  induction t with
  | nil => rfl
  | cons kv rest ih =>
    obtain ⟨k, v⟩ := kv
    have hk := h (k, v) (List.mem_cons_self _ _)
    simp only [specFirstMatch, hk]
    simp only [Bool.false_eq_true, if_false]
    exact ih fun kv hkv => h kv (List.mem_cons_of_mem _ hkv)

theorem specLastMatch_eq_none {t : List (String × String)} {m : String}
    (h : ∀ kv ∈ t, pyIn kv.1 m = false) : specLastMatch t m = none := by
  induction t with
  | nil => rfl
  | cons kv rest ih =>
    obtain ⟨k, v⟩ := kv
    have hk := h (k, v) (List.mem_cons_self _ _)
    have hr := ih fun kv hkv => h kv (List.mem_cons_of_mem _ hkv)
    simp only [specLastMatch, hr, hk]
    simp [Bool.false_eq_true]

theorem osciType_eq_lastMatch {mtype tok : String}
    (hc : pyIn "c" (pyLower mtype) = false)
    (h : specLastMatch osciDic (pyLower mtype) = some tok) :
    osciType mtype = some (tok, false) := by
  unfold osciType
  rw [hc]
  simp only [Bool.false_eq_true, if_false]
  rw [scanLast_eq_specLastMatch, h]
  simp [specLastMatch_mem_values h]

theorem genWaveform_eq_firstMatch {s tok : String}
    (hc : pyIn "c" (pyLower s) = false)
    (h : specFirstMatch genDic (pyLower s) = some tok) :
    genWaveform s = (tok, false) := by
  unfold genWaveform
  rw [hc]
  simp only [Bool.false_eq_true, if_false]
  rw [genScan_eq_specFirstMatch genDic_cross h]
  simp [specFirstMatch_mem_values h]

theorem genWaveform_default {s : String}
    (hc : pyIn "c" (pyLower s) = false)
    (h : ∀ kv ∈ genDic, pyIn kv.1 (pyLower s) = false) :
    genWaveform s = ("SIN", true) := by
  unfold genWaveform
  rw [hc]
  simp only [Bool.false_eq_true, if_false]
  rw [genScan_of_no_match (specFirstMatch_eq_none h)]
  simp [genDic_any_pyLower]

theorem osciType_eq_none {mtype : String}
    (hc : pyIn "c" (pyLower mtype) = false)
    (h : ∀ kv ∈ osciDic, pyIn kv.1 (pyLower mtype) = false) :
    osciType mtype = none := by
  unfold osciType
  rw [hc]
  simp only [Bool.false_eq_true, if_false]
  rw [scanLast_eq_specLastMatch, specLastMatch_eq_none h]

theorem runFields_skip {b : FieldB} {cfg : GenConfig} (h : b.act cfg = .skip)
    (tr : Nat → Bool) (k : Nat) (bs : List FieldB) :
    runFields tr k cfg (b :: bs) = runFields tr k cfg bs := by
  simp [runFields, h]

theorem runFields_fail {b : FieldB} {cfg : GenConfig} {e : GErr}
    (h : b.act cfg = .fail e) (tr : Nat → Bool) (k : Nat) (bs : List FieldB) :
    runFields tr k cfg (b :: bs) = ⟨some e, cfg, [], k⟩ := by
  simp [runFields, h]

theorem runFields_write_ok {b : FieldB} {cfg : GenConfig} {c : GCmd}
    (h : b.act cfg = .write c) {tr : Nat → Bool} {k : Nat} (htr : tr k = true)
    (bs : List FieldB) :
    runFields tr k cfg (b :: bs) =
      { runFields tr (k + 1) (applyW cfg c) bs with
        ws := c :: (runFields tr (k + 1) (applyW cfg c) bs).ws } := by
  simp [runFields, h, htr]

theorem runFields_write_fail {b : FieldB} {cfg : GenConfig} {c : GCmd}
    (h : b.act cfg = .write c) {tr : Nat → Bool} {k : Nat} (htr : tr k = false)
    (bs : List FieldB) :
    runFields tr k cfg (b :: bs) = ⟨some (.transport c), cfg, [], k + 1⟩ := by
  simp [runFields, h, htr]

/-- The cache after a run equals the starting cache with exactly the
successful writes applied, for any transport: the cache is write-through
and never read back from the device. -/
theorem runFields_cfg_foldl (tr : Nat → Bool) (k : Nat) (cfg : GenConfig)
    (bs : List FieldB) :
    (runFields tr k cfg bs).cfg = (runFields tr k cfg bs).ws.foldl applyW cfg := by
  induction bs generalizing k cfg with
  | nil => rfl
  | cons b bs ih =>
    cases hact : b.act cfg with
    | skip => rw [runFields_skip hact]; exact ih k cfg
    | fail e => rw [runFields_fail hact]; rfl
    | write c =>
      cases htr : tr k with
      | true =>
        rw [runFields_write_ok hact htr]
        simpa using ih (k + 1) (applyW cfg c)
      | false => rw [runFields_write_fail hact htr]; rfl

/-- Any property of commands that every block only writes is satisfied by
every successful write of a run. -/
theorem runFields_ws_prop {P : GCmd → Prop} {bs : List FieldB}
    (hb : ∀ b ∈ bs, ∀ cfg c, b.act cfg = .write c → P c) :
    ∀ tr k cfg, ∀ c ∈ (runFields tr k cfg bs).ws, P c := by
  induction bs with
  | nil => intro tr k cfg c hc; simp [runFields] at hc
  | cons b bs ih =>
    intro tr k cfg c hc
    cases hact : b.act cfg with
    | skip =>
      rw [runFields_skip hact] at hc
      exact ih (fun b' h' => hb b' (List.mem_cons_of_mem _ h')) tr k cfg c hc
    | fail e =>
      rw [runFields_fail hact] at hc
      simp at hc
    | write c0 =>
      cases htr : tr k with
      | true =>
        rw [runFields_write_ok hact htr] at hc
        simp only [List.mem_cons] at hc
        cases hc with
        | inl h => exact h ▸ hb b (List.mem_cons_self _ _) cfg c0 hact
        | inr h =>
          exact ih (fun b' h' => hb b' (List.mem_cons_of_mem _ h')) tr (k + 1)
            (applyW cfg c0) c h
      | false =>
        rw [runFields_write_fail hact htr] at hc
        simp at hc

/-- With a perfect transport, a run over blocks that never raise ends
without error. -/
theorem runFields_err_none {bs : List FieldB}
    (hb : ∀ b ∈ bs, ∀ cfg e, b.act cfg ≠ .fail e) :
    ∀ k cfg, (runFields trOK k cfg bs).err = none := by
  induction bs with
  | nil => intro k cfg; rfl
  | cons b bs ih =>
    intro k cfg
    cases hact : b.act cfg with
    | skip =>
      rw [runFields_skip hact]
      exact ih (fun b' h' => hb b' (List.mem_cons_of_mem _ h')) k cfg
    | fail e => exact absurd hact (hb b (List.mem_cons_self _ _) cfg e)
    | write c =>
      rw [runFields_write_ok hact rfl]
      exact ih (fun b' h' => hb b' (List.mem_cons_of_mem _ h')) (k + 1) (applyW cfg c)

theorem runFields_append (tr : Nat → Bool) (k : Nat) (cfg : GenConfig)
    (xs ys : List FieldB) :
    runFields tr k cfg (xs ++ ys) = seqOut (runFields tr k cfg xs) tr ys := by
  induction xs generalizing k cfg with
  | nil =>
    show runFields tr k cfg ys = seqOut ⟨none, cfg, [], k⟩ tr ys
    simp [seqOut]
  | cons b xs ih =>
    cases hact : b.act cfg with
    | skip =>
      rw [List.cons_append, runFields_skip hact, runFields_skip hact, ih]
    | fail e =>
      rw [List.cons_append, runFields_fail hact, runFields_fail hact]
      rfl
    | write c =>
      cases htr : tr k with
      | true =>
        rw [List.cons_append, runFields_write_ok hact htr,
          runFields_write_ok hact htr, ih]
        cases herr : (runFields tr (k + 1) (applyW cfg c) xs).err with
        | some e => simp [seqOut, herr]
        | none => simp [seqOut, herr]
      | false =>
        rw [List.cons_append, runFields_write_fail hact htr,
          runFields_write_fail hact htr]
        rfl

theorem act_pres_run {bI : FieldB} {bs : List FieldB}
    (hp : ∀ b' ∈ bs, PAct bI b') :
    ∀ k cfg, bI.act (runFields trOK k cfg bs).cfg = bI.act cfg := by
  induction bs with
  | nil => intro k cfg; rfl
  | cons b bs ih =>
    intro k cfg
    cases hact : b.act cfg with
    | skip =>
      rw [runFields_skip hact]
      exact ih (fun b' h' => hp b' (List.mem_cons_of_mem _ h')) k cfg
    | fail e => rw [runFields_fail hact]
    | write c =>
      rw [runFields_write_ok hact rfl]
      show bI.act (runFields trOK (k + 1) (applyW cfg c) bs).cfg = bI.act cfg
      rw [ih (fun b' h' => hp b' (List.mem_cons_of_mem _ h')) (k + 1) (applyW cfg c)]
      exact hp b (List.mem_cons_self _ _) cfg c hact

/-- Idempotence of a run under a perfect transport: running the same
blocks again from the final cache performs no write, changes no cache
entry and reproduces the error. -/
theorem runFields_idem {bs : List FieldB}
    (hs : ∀ b ∈ bs, Stable b) (hp : bs.Pairwise PAct) :
    ∀ k k₂ cfg, runFields trOK k₂ (runFields trOK k cfg bs).cfg bs =
      ⟨(runFields trOK k cfg bs).err, (runFields trOK k cfg bs).cfg, [], k₂⟩ := by
  induction bs with
  | nil => intro k k₂ cfg; rfl
  | cons b bs ih =>
    intro k k₂ cfg
    obtain ⟨hpb, hp'⟩ := List.pairwise_cons.mp hp
    have hs' : ∀ b' ∈ bs, Stable b' := fun b' h' => hs b' (List.mem_cons_of_mem _ h')
    cases hact : b.act cfg with
    | skip =>
      rw [runFields_skip hact]
      have h2 : b.act (runFields trOK k cfg bs).cfg = .skip := by
        rw [act_pres_run hpb k cfg]; exact hact
      rw [runFields_skip h2]
      exact ih hs' hp' k k₂ cfg
    | fail e =>
      rw [runFields_fail hact]
      rw [runFields_fail hact]
    | write c =>
      rw [runFields_write_ok hact rfl]
      show runFields trOK k₂ (runFields trOK (k + 1) (applyW cfg c) bs).cfg (b :: bs) = _
      have h2 : b.act (runFields trOK (k + 1) (applyW cfg c) bs).cfg = .skip := by
        rw [act_pres_run hpb (k + 1) (applyW cfg c)]
        exact hs b (List.mem_cons_self _ _) cfg c hact
      rw [runFields_skip h2]
      exact ih hs' hp' (k + 1) k₂ (applyW cfg c)

/-- Failing the transport exactly at the i-th write of an otherwise
successful run: the error escapes, the earlier writes stay applied in the
cache, the later fields are untouched, and no further write is attempted. -/
theorem trOK_eq (k : Nat) : trOK k = true := rfl

theorem runFields_cut {bs : List FieldB} :
    ∀ k cfg, (runFields trOK k cfg bs).err = none →
    ∀ i c, (runFields trOK k cfg bs).ws[i]? = some c →
    runFields (fun j => !decide (j = k + i)) k cfg bs =
      ⟨some (.transport c),
       ((runFields trOK k cfg bs).ws.take i).foldl applyW cfg,
       (runFields trOK k cfg bs).ws.take i,
       k + i + 1⟩ := by
  induction bs with
  | nil =>
    intro k cfg _ i c hi
    simp [runFields] at hi
  | cons b bs ih =>
    intro k cfg herr i c hi
    cases hact : b.act cfg with
    | skip =>
      rw [runFields_skip hact trOK k bs] at herr hi
      rw [runFields_skip hact (fun j => !decide (j = k + i)) k bs,
        runFields_skip hact trOK k bs]
      exact ih k cfg herr i c hi
    | fail e =>
      rw [runFields_fail hact trOK k bs] at herr
      simp at herr
    | write c0 =>
      rw [runFields_write_ok hact (trOK_eq k) bs] at herr hi
      replace herr : (runFields trOK (k + 1) (applyW cfg c0) bs).err = none := herr
      rw [runFields_write_ok hact (trOK_eq k) bs]
      cases i with
      | zero =>
        simp only [List.getElem?_cons_zero, Option.some.injEq] at hi
        have htr : (fun j => !decide (j = k + 0)) k = false := by simp
        rw [runFields_write_fail hact htr bs]
        cases hi
        rfl
      | succ i' =>
        simp only [List.getElem?_cons_succ] at hi
        have htr : (fun j => !decide (j = k + (i' + 1))) k = true := by
          simp
        rw [runFields_write_ok hact htr bs]
        have hfun : (fun j => !decide (j = k + (i' + 1))) =
            (fun j => !decide (j = (k + 1) + i')) := by
          funext j
          have hkk : k + (i' + 1) = (k + 1) + i' := by omega
          rw [hkk]
        rw [hfun, ih (k + 1) (applyW cfg c0) herr i' c hi]
        simp only [List.take_succ_cons, List.foldl_cons, RFOut.mk.injEq]
        and_intros <;> first | rfl | trivial | omega

theorem getChan_updChan_self (cfg : GenConfig) (ch : Nat) (f : ChanConf → ChanConf) :
    getChan (updChan cfg ch f) ch = f (getChan cfg ch) := by
  simp [getChan, updChan]

theorem wvB_nofail (ch : Nat) (wv : String) :
    ∀ cfg e, (wvB ch wv).act cfg ≠ .fail e := by
  intro cfg e h
  by_cases hc : (getChan cfg ch).wave = wv
  · simp [wvB, hc] at h
  · simp [wvB, hc] at h

theorem numB_nofail (ch : Nat) (arg : Option Rat) (get : ChanConf → Rat)
    (mk : Nat → Rat → GCmd) : ∀ cfg e, (numB ch arg get mk).act cfg ≠ .fail e := by
  intro cfg e h
  rcases arg with _ | v
  · simp [numB] at h
  · by_cases hg : get (getChan cfg ch) = v
    · simp [numB, hg] at h
    · simp [numB, hg] at h

theorem numB_writes {ch : Nat} {arg : Option Rat} {get : ChanConf → Rat}
    {mk : Nat → Rat → GCmd} {cfg : GenConfig} {c : GCmd}
    (h : (numB ch arg get mk).act cfg = .write c) :
    ∃ v, arg = some v ∧ c = mk ch v := by
  rcases arg with _ | v
  · simp [numB] at h
  · by_cases hg : get (getChan cfg ch) = v
    · simp [numB, hg] at h
    · simp [numB, hg] at h
      exact ⟨v, rfl, h.symm⟩

theorem dutyB_writes {ch : Nat} {arg : Option Rat} {wv : String} {cfg : GenConfig}
    {c : GCmd} (h : (dutyB ch arg wv).act cfg = .write c) :
    ∃ d, arg = some d ∧ c = .duty ch d := by
  rcases arg with _ | d
  · simp [dutyB] at h
  · by_cases hw : wv = "PULS"
    · subst hw
      cases hd : (getChan cfg ch).duty with
      | none => simp [dutyB, hd] at h
      | some dc =>
        by_cases hdc : dc = d
        · simp [dutyB, hd, hdc] at h
        · simp [dutyB, hd, hdc] at h
          exact ⟨d, rfl, h.symm⟩
    · simp [dutyB, hw] at h

theorem symmB_writes {ch : Nat} {arg : Option Rat} {wv : String} {cfg : GenConfig}
    {c : GCmd} (h : (symmB ch arg wv).act cfg = .write c) :
    ∃ sv, arg = some sv ∧ c = .symm ch sv := by
  rcases arg with _ | sv
  · simp [symmB] at h
  · by_cases hw : wv = "RAMP"
    · subst hw
      by_cases hg : (getChan cfg ch).symm = sv
      · simp [symmB, hg] at h
      · simp [symmB, hg] at h
        exact ⟨sv, rfl, h.symm⟩
    · simp [symmB, hw] at h

theorem wvB_congr (ch : Nat) (wv : String) {cfg cfg' : GenConfig}
    (h : (getChan cfg ch).wave = (getChan cfg' ch).wave) :
    (wvB ch wv).act cfg = (wvB ch wv).act cfg' := by
  simp [wvB, h]

theorem numB_congr (ch : Nat) (arg : Option Rat) (get : ChanConf → Rat)
    (mk : Nat → Rat → GCmd) {cfg cfg' : GenConfig}
    (h : get (getChan cfg ch) = get (getChan cfg' ch)) :
    (numB ch arg get mk).act cfg = (numB ch arg get mk).act cfg' := by
  rcases arg with _ | v
  · rfl
  · simp [numB, h]

theorem dutyB_congr (ch : Nat) (arg : Option Rat) (wv : String) {cfg cfg' : GenConfig}
    (h : (getChan cfg ch).duty = (getChan cfg' ch).duty) :
    (dutyB ch arg wv).act cfg = (dutyB ch arg wv).act cfg' := by
  rcases arg with _ | d
  · rfl
  · simp [dutyB, h]

theorem symmB_congr (ch : Nat) (arg : Option Rat) (wv : String) {cfg cfg' : GenConfig}
    (h : (getChan cfg ch).symm = (getChan cfg' ch).symm) :
    (symmB ch arg wv).act cfg = (symmB ch arg wv).act cfg' := by
  rcases arg with _ | sv
  · rfl
  · simp [symmB, h]

theorem wvB_stable (ch : Nat) (wv : String) : Stable (wvB ch wv) := by
  intro cfg c h
  have hc : c = GCmd.shape ch wv := by
    by_cases hw : (getChan cfg ch).wave = wv
    · simp [wvB, hw] at h
    · simp [wvB, hw] at h
      exact h.symm
  subst hc
  simp [wvB, applyW, getChan_updChan_self]

theorem numB_stable (ch : Nat) (arg : Option Rat) (get : ChanConf → Rat)
    (mk : Nat → Rat → GCmd)
    (hcoh : ∀ cfg v, get (getChan (applyW cfg (mk ch v)) ch) = v) :
    Stable (numB ch arg get mk) := by
  intro cfg c h
  obtain ⟨v, harg, hc⟩ := numB_writes h
  subst harg
  subst hc
  simp [numB, hcoh cfg v]

theorem dutyB_stable (ch : Nat) (arg : Option Rat) (wv : String) :
    Stable (dutyB ch arg wv) := by
  intro cfg c h
  obtain ⟨d, harg, hc⟩ := dutyB_writes h
  subst harg
  subst hc
  have hw : wv = "PULS" := by
    by_cases hw : wv = "PULS"
    · exact hw
    · simp [dutyB, hw] at h
  subst hw
  simp [dutyB, applyW, getChan_updChan_self]

theorem symmB_stable (ch : Nat) (arg : Option Rat) (wv : String) :
    Stable (symmB ch arg wv) := by
  intro cfg c h
  obtain ⟨sv, harg, hc⟩ := symmB_writes h
  subst harg
  subst hc
  have hw : wv = "RAMP" := by
    by_cases hw : wv = "RAMP"
    · exact hw
    · simp [symmB, hw] at h
  subst hw
  simp [symmB, applyW, getChan_updChan_self]

theorem genBlocks_stable (ch : Nat) (wv : String) (fA aA oA pA dA sA : Option Rat) :
    ∀ b ∈ genBlocks ch wv fA aA oA pA dA sA, Stable b := by
  intro b hb
  simp only [genBlocks, List.mem_cons, List.not_mem_nil, or_false] at hb
  rcases hb with rfl | rfl | rfl | rfl | rfl | rfl | rfl
  · exact wvB_stable ch wv
  · exact numB_stable ch fA ChanConf.freq GCmd.freq
      (fun cfg v => by simp [applyW, getChan_updChan_self])
  · exact numB_stable ch aA ChanConf.ampl GCmd.ampl
      (fun cfg v => by simp [applyW, getChan_updChan_self])
  · exact numB_stable ch oA ChanConf.offs GCmd.offs
      (fun cfg v => by simp [applyW, getChan_updChan_self])
  · exact numB_stable ch pA ChanConf.phase GCmd.phase
      (fun cfg v => by simp [applyW, getChan_updChan_self])
  · exact dutyB_stable ch dA wv
  · exact symmB_stable ch sA wv

theorem genBlocks_pairwise (ch : Nat) (wv : String) (fA aA oA pA dA sA : Option Rat) :
    (genBlocks ch wv fA aA oA pA dA sA).Pairwise PAct := by
  unfold genBlocks
  refine List.Pairwise.cons ?_ (List.Pairwise.cons ?_ (List.Pairwise.cons ?_
    (List.Pairwise.cons ?_ (List.Pairwise.cons ?_ (List.Pairwise.cons ?_
      (List.Pairwise.cons (fun b hb => absurd hb (List.not_mem_nil b))
        List.Pairwise.nil)))))) <;>
  · intro b' hb'
    simp only [List.mem_cons, List.not_mem_nil, or_false] at hb'
    intro cfg c h
    rcases hb' with rfl | rfl | rfl | rfl | rfl | rfl | rfl <;>
    first
    | (obtain ⟨v, hv, rfl⟩ := numB_writes h
       first
       | exact wvB_congr _ _ (by simp [applyW, getChan_updChan_self])
       | exact numB_congr _ _ _ _ (by simp [applyW, getChan_updChan_self])
       | exact dutyB_congr _ _ _ (by simp [applyW, getChan_updChan_self])
       | exact symmB_congr _ _ _ (by simp [applyW, getChan_updChan_self]))
    | (obtain ⟨v, hv, rfl⟩ := dutyB_writes h
       first
       | exact wvB_congr _ _ (by simp [applyW, getChan_updChan_self])
       | exact numB_congr _ _ _ _ (by simp [applyW, getChan_updChan_self])
       | exact symmB_congr _ _ _ (by simp [applyW, getChan_updChan_self]))
    | (obtain ⟨v, hv, rfl⟩ := symmB_writes h
       first
       | exact wvB_congr _ _ (by simp [applyW, getChan_updChan_self])
       | exact numB_congr _ _ _ _ (by simp [applyW, getChan_updChan_self])
       | exact dutyB_congr _ _ _ (by simp [applyW, getChan_updChan_self]))

theorem run_chunk {b : FieldB} {cfg : GenConfig} {chunk : List GCmd}
    (h : (b.act cfg = .skip ∧ chunk = []) ∨ (∃ c, b.act cfg = .write c ∧ chunk = [c]))
    (k : Nat) (bs : List FieldB) :
    runFields trOK k cfg (b :: bs) =
      { runFields trOK (k + chunk.length) (chunk.foldl applyW cfg) bs with
        ws := chunk ++ (runFields trOK (k + chunk.length) (chunk.foldl applyW cfg) bs).ws } := by
  rcases h with ⟨hs, rfl⟩ | ⟨c, hw, rfl⟩
  · rw [runFields_skip hs]
    simp
  · rw [runFields_write_ok hw (trOK_eq k)]
    simp

theorem wvB_chunk (ch : Nat) (wv : String) (cfg : GenConfig) :
    ((wvB ch wv).act cfg = .skip ∧ wvChunk ch wv cfg = []) ∨
      (∃ c, (wvB ch wv).act cfg = .write c ∧ wvChunk ch wv cfg = [c]) := by
  by_cases hw : (getChan cfg ch).wave = wv
  · exact Or.inl (by simp [wvB, wvChunk, hw])
  · exact Or.inr ⟨GCmd.shape ch wv, by simp [wvB, wvChunk, hw]⟩

theorem numB_chunk (ch : Nat) (arg : Option Rat) (get : ChanConf → Rat)
    (mk : Nat → Rat → GCmd) (cfg : GenConfig) :
    ((numB ch arg get mk).act cfg = .skip ∧ numChunk ch arg get mk cfg = []) ∨
      (∃ c, (numB ch arg get mk).act cfg = .write c ∧ numChunk ch arg get mk cfg = [c]) := by
  rcases arg with _ | v
  · exact Or.inl ⟨rfl, rfl⟩
  · by_cases hg : get (getChan cfg ch) = v
    · exact Or.inl (by simp [numB, numChunk, hg])
    · exact Or.inr ⟨mk ch v, by simp [numB, numChunk, hg]⟩

theorem dutyB_chunk (ch : Nat) (arg : Option Rat) (wv : String) (cfg : GenConfig)
    (hnf : arg = none ∨ (wv = "PULS" ∧ (getChan cfg ch).duty.isSome)) :
    ((dutyB ch arg wv).act cfg = .skip ∧ dutyChunk ch arg cfg = []) ∨
      (∃ c, (dutyB ch arg wv).act cfg = .write c ∧ dutyChunk ch arg cfg = [c]) := by
  rcases arg with _ | d
  · exact Or.inl ⟨rfl, rfl⟩
  · rcases hnf with hnf | ⟨hwv, hnf⟩
    · exact absurd hnf (by simp)
    · subst hwv
      obtain ⟨dc, hd⟩ := Option.isSome_iff_exists.mp hnf
      by_cases hdc : dc = d
      · exact Or.inl (by simp [dutyB, dutyChunk, hd, hdc])
      · exact Or.inr ⟨GCmd.duty ch d, by simp [dutyB, dutyChunk, hd, hdc]⟩

theorem symmB_chunk (ch : Nat) (arg : Option Rat) (wv : String) (cfg : GenConfig)
    (hnf : arg = none ∨ wv = "RAMP") :
    ((symmB ch arg wv).act cfg = .skip ∧ symmChunk ch arg cfg = []) ∨
      (∃ c, (symmB ch arg wv).act cfg = .write c ∧ symmChunk ch arg cfg = [c]) := by
  rcases arg with _ | sv
  · exact Or.inl ⟨rfl, rfl⟩
  · rcases hnf with hnf | hwv
    · exact absurd hnf (by simp)
    · subst hwv
      by_cases hg : (getChan cfg ch).symm = sv
      · exact Or.inl (by simp [symmB, symmChunk, hg])
      · exact Or.inr ⟨GCmd.symm ch sv, by simp [symmB, symmChunk, hg]⟩

theorem applyW_pres_wave {c : GCmd} (h : cmdF c ≠ 0) (cfg : GenConfig) (ch : Nat) :
    (getChan (applyW cfg c) ch).wave = (getChan cfg ch).wave := by
  cases c
  all_goals first
    | exact absurd rfl h
    | (simp only [applyW, updChan, getChan]; split <;> rfl)

theorem applyW_pres_freq {c : GCmd} (h : cmdF c ≠ 1) (cfg : GenConfig) (ch : Nat) :
    (getChan (applyW cfg c) ch).freq = (getChan cfg ch).freq := by
  cases c
  all_goals first
    | exact absurd rfl h
    | (simp only [applyW, updChan, getChan]; split <;> rfl)

theorem applyW_pres_ampl {c : GCmd} (h : cmdF c ≠ 2) (cfg : GenConfig) (ch : Nat) :
    (getChan (applyW cfg c) ch).ampl = (getChan cfg ch).ampl := by
  cases c
  all_goals first
    | exact absurd rfl h
    | (simp only [applyW, updChan, getChan]; split <;> rfl)

theorem applyW_pres_offs {c : GCmd} (h : cmdF c ≠ 3) (cfg : GenConfig) (ch : Nat) :
    (getChan (applyW cfg c) ch).offs = (getChan cfg ch).offs := by
  cases c
  all_goals first
    | exact absurd rfl h
    | (simp only [applyW, updChan, getChan]; split <;> rfl)

theorem applyW_pres_phase {c : GCmd} (h : cmdF c ≠ 4) (cfg : GenConfig) (ch : Nat) :
    (getChan (applyW cfg c) ch).phase = (getChan cfg ch).phase := by
  cases c
  all_goals first
    | exact absurd rfl h
    | (simp only [applyW, updChan, getChan]; split <;> rfl)

theorem applyW_pres_duty {c : GCmd} (h : cmdF c ≠ 5) (cfg : GenConfig) (ch : Nat) :
    (getChan (applyW cfg c) ch).duty = (getChan cfg ch).duty := by
  cases c
  all_goals first
    | exact absurd rfl h
    | (simp only [applyW, updChan, getChan]; split <;> rfl)

theorem applyW_pres_symm {c : GCmd} (h : cmdF c ≠ 6) (cfg : GenConfig) (ch : Nat) :
    (getChan (applyW cfg c) ch).symm = (getChan cfg ch).symm := by
  cases c
  all_goals first
    | exact absurd rfl h
    | (simp only [applyW, updChan, getChan]; split <;> rfl)

theorem foldl_applyW_proj {α : Type} (p : ChanConf → α) {l : List GCmd}
    (h : ∀ c ∈ l, ∀ cfg ch, p (getChan (applyW cfg c) ch) = p (getChan cfg ch)) :
    ∀ cfg ch, p (getChan (l.foldl applyW cfg) ch) = p (getChan cfg ch) := by
  induction l with
  | nil => intro cfg ch; rfl
  | cons c l ih =>
    intro cfg ch
    rw [List.foldl_cons, ih (fun c' hc' => h c' (List.mem_cons_of_mem _ hc'))
      (applyW cfg c) ch, h c (List.mem_cons_self _ _) cfg ch]

theorem wvChunk_cmdF {ch : Nat} {wv : String} {cfg : GenConfig} :
    ∀ c ∈ wvChunk ch wv cfg, cmdF c = 0 := by
  intro c hc
  unfold wvChunk at hc
  split at hc
  · simp at hc
    subst hc
    rfl
  · simp at hc

theorem numChunk_cmdF {ch : Nat} {arg : Option Rat} {get : ChanConf → Rat}
    {mk : Nat → Rat → GCmd} {cfg : GenConfig} {j : Nat}
    (hmk : ∀ x v, cmdF (mk x v) = j) :
    ∀ c ∈ numChunk ch arg get mk cfg, cmdF c = j := by
  intro c hc
  rcases arg with _ | v
  · simp [numChunk] at hc
  · simp only [numChunk] at hc
    split at hc
    · simp at hc
      subst hc
      exact hmk ch v
    · simp at hc

theorem dutyChunk_cmdF {ch : Nat} {arg : Option Rat} {cfg : GenConfig} :
    ∀ c ∈ dutyChunk ch arg cfg, cmdF c = 5 := by
  intro c hc
  rcases arg with _ | d
  · simp [dutyChunk] at hc
  · cases hd : (getChan cfg ch).duty with
    | none => simp [dutyChunk, hd] at hc
    | some dc =>
      simp only [dutyChunk, hd] at hc
      split at hc
      · simp at hc
        subst hc
        rfl
      · simp at hc

theorem symmChunk_cmdF {ch : Nat} {arg : Option Rat} {cfg : GenConfig} :
    ∀ c ∈ symmChunk ch arg cfg, cmdF c = 6 := by
  intro c hc
  rcases arg with _ | sv
  · simp [symmChunk] at hc
  · simp only [symmChunk] at hc
    split at hc
    · simp at hc
      subst hc
      rfl
    · simp at hc

theorem fold_pres_wave {l : List GCmd} (h : ∀ c ∈ l, cmdF c ≠ 0) :
    ∀ cfg ch, (getChan (l.foldl applyW cfg) ch).wave = (getChan cfg ch).wave :=
  foldl_applyW_proj ChanConf.wave (fun c hc cfg ch => applyW_pres_wave (h c hc) cfg ch)

theorem fold_pres_freq {l : List GCmd} (h : ∀ c ∈ l, cmdF c ≠ 1) :
    ∀ cfg ch, (getChan (l.foldl applyW cfg) ch).freq = (getChan cfg ch).freq :=
  foldl_applyW_proj ChanConf.freq (fun c hc cfg ch => applyW_pres_freq (h c hc) cfg ch)

theorem fold_pres_ampl {l : List GCmd} (h : ∀ c ∈ l, cmdF c ≠ 2) :
    ∀ cfg ch, (getChan (l.foldl applyW cfg) ch).ampl = (getChan cfg ch).ampl :=
  foldl_applyW_proj ChanConf.ampl (fun c hc cfg ch => applyW_pres_ampl (h c hc) cfg ch)

theorem fold_pres_offs {l : List GCmd} (h : ∀ c ∈ l, cmdF c ≠ 3) :
    ∀ cfg ch, (getChan (l.foldl applyW cfg) ch).offs = (getChan cfg ch).offs :=
  foldl_applyW_proj ChanConf.offs (fun c hc cfg ch => applyW_pres_offs (h c hc) cfg ch)

theorem fold_pres_phase {l : List GCmd} (h : ∀ c ∈ l, cmdF c ≠ 4) :
    ∀ cfg ch, (getChan (l.foldl applyW cfg) ch).phase = (getChan cfg ch).phase :=
  foldl_applyW_proj ChanConf.phase (fun c hc cfg ch => applyW_pres_phase (h c hc) cfg ch)

theorem fold_pres_duty {l : List GCmd} (h : ∀ c ∈ l, cmdF c ≠ 5) :
    ∀ cfg ch, (getChan (l.foldl applyW cfg) ch).duty = (getChan cfg ch).duty :=
  foldl_applyW_proj ChanConf.duty (fun c hc cfg ch => applyW_pres_duty (h c hc) cfg ch)

theorem fold_pres_symm {l : List GCmd} (h : ∀ c ∈ l, cmdF c ≠ 6) :
    ∀ cfg ch, (getChan (l.foldl applyW cfg) ch).symm = (getChan cfg ch).symm :=
  foldl_applyW_proj ChanConf.symm (fun c hc cfg ch => applyW_pres_symm (h c hc) cfg ch)

theorem numChunk_congr {ch : Nat} {arg : Option Rat} {get : ChanConf → Rat}
    {mk : Nat → Rat → GCmd} {cfg cfg' : GenConfig}
    (h : get (getChan cfg ch) = get (getChan cfg' ch)) :
    numChunk ch arg get mk cfg = numChunk ch arg get mk cfg' := by
  rcases arg with _ | v
  · rfl
  · simp [numChunk, h]

theorem dutyChunk_congr {ch : Nat} {arg : Option Rat} {cfg cfg' : GenConfig}
    (h : (getChan cfg ch).duty = (getChan cfg' ch).duty) :
    dutyChunk ch arg cfg = dutyChunk ch arg cfg' := by
  rcases arg with _ | d
  · rfl
  · simp [dutyChunk, h]

theorem symmChunk_congr {ch : Nat} {arg : Option Rat} {cfg cfg' : GenConfig}
    (h : (getChan cfg ch).symm = (getChan cfg' ch).symm) :
    symmChunk ch arg cfg = symmChunk ch arg cfg' := by
  rcases arg with _ | sv
  · rfl
  · simp [symmChunk, h]

theorem runFields_k_irrel (bs : List FieldB) : ∀ k k' cfg,
    (runFields trOK k cfg bs).err = (runFields trOK k' cfg bs).err ∧
    (runFields trOK k cfg bs).ws = (runFields trOK k' cfg bs).ws ∧
    (runFields trOK k cfg bs).cfg = (runFields trOK k' cfg bs).cfg := by
  induction bs with
  | nil => exact fun k k' cfg => ⟨rfl, rfl, rfl⟩
  | cons b bs ih =>
    intro k k' cfg
    cases hact : b.act cfg with
    | skip => rw [runFields_skip hact trOK k bs, runFields_skip hact trOK k' bs]; exact ih k k' cfg
    | fail e =>
      rw [runFields_fail hact trOK k bs, runFields_fail hact trOK k' bs]
      exact ⟨rfl, rfl, rfl⟩
    | write c =>
      rw [runFields_write_ok hact (trOK_eq k) bs, runFields_write_ok hact (trOK_eq k') bs]
      obtain ⟨h1, h2, h3⟩ := ih (k + 1) (k' + 1) (applyW cfg c)
      exact ⟨h1, by rw [h2], h3⟩

theorem gen_run5 (ch : Nat) (wv : String) (fA aA oA pA dA sA : Option Rat)
    (cfg0 : GenConfig) :
    (runFields trOK 0 cfg0 (genBlocks ch wv fA aA oA pA dA sA)).err =
      (runFields trOK 0 ((expW5 cfg0 ch wv fA aA oA pA).foldl applyW cfg0)
        [dutyB ch dA wv, symmB ch sA wv]).err ∧
    (runFields trOK 0 cfg0 (genBlocks ch wv fA aA oA pA dA sA)).ws =
      expW5 cfg0 ch wv fA aA oA pA ++
        (runFields trOK 0 ((expW5 cfg0 ch wv fA aA oA pA).foldl applyW cfg0)
          [dutyB ch dA wv, symmB ch sA wv]).ws ∧
    (runFields trOK 0 cfg0 (genBlocks ch wv fA aA oA pA dA sA)).cfg =
      (runFields trOK 0 ((expW5 cfg0 ch wv fA aA oA pA).foldl applyW cfg0)
        [dutyB ch dA wv, symmB ch sA wv]).cfg := by
  have m1 : ∀ c ∈ wvChunk ch wv cfg0, cmdF c = 0 := wvChunk_cmdF
  have m2 : ∀ c ∈ numChunk ch fA ChanConf.freq GCmd.freq cfg0, cmdF c = 1 :=
    numChunk_cmdF (fun x v => rfl)
  have m3 : ∀ c ∈ numChunk ch aA ChanConf.ampl GCmd.ampl cfg0, cmdF c = 2 :=
    numChunk_cmdF (fun x v => rfl)
  have m4 : ∀ c ∈ numChunk ch oA ChanConf.offs GCmd.offs cfg0, cmdF c = 3 :=
    numChunk_cmdF (fun x v => rfl)
  have pf : ChanConf.freq (getChan ((wvChunk ch wv cfg0).foldl applyW cfg0) ch) =
      ChanConf.freq (getChan cfg0 ch) :=
    fold_pres_freq (fun c hc => by simp [m1 c hc]) cfg0 ch
  have pa : ChanConf.ampl (getChan ((numChunk ch fA ChanConf.freq GCmd.freq cfg0).foldl applyW
      ((wvChunk ch wv cfg0).foldl applyW cfg0)) ch) = ChanConf.ampl (getChan cfg0 ch) := by
    rw [fold_pres_ampl (fun c hc => by simp [m2 c hc]),
      fold_pres_ampl (fun c hc => by simp [m1 c hc])]
  have po : ChanConf.offs (getChan ((numChunk ch aA ChanConf.ampl GCmd.ampl cfg0).foldl applyW
      ((numChunk ch fA ChanConf.freq GCmd.freq cfg0).foldl applyW
        ((wvChunk ch wv cfg0).foldl applyW cfg0))) ch) = ChanConf.offs (getChan cfg0 ch) := by
    rw [fold_pres_offs (fun c hc => by simp [m3 c hc]),
      fold_pres_offs (fun c hc => by simp [m2 c hc]),
      fold_pres_offs (fun c hc => by simp [m1 c hc])]
  have pp : ChanConf.phase (getChan ((numChunk ch oA ChanConf.offs GCmd.offs cfg0).foldl applyW
      ((numChunk ch aA ChanConf.ampl GCmd.ampl cfg0).foldl applyW
        ((numChunk ch fA ChanConf.freq GCmd.freq cfg0).foldl applyW
          ((wvChunk ch wv cfg0).foldl applyW cfg0)))) ch) =
      ChanConf.phase (getChan cfg0 ch) := by
    rw [fold_pres_phase (fun c hc => by simp [m4 c hc]),
      fold_pres_phase (fun c hc => by simp [m3 c hc]),
      fold_pres_phase (fun c hc => by simp [m2 c hc]),
      fold_pres_phase (fun c hc => by simp [m1 c hc])]
  have hcfg5 : (expW5 cfg0 ch wv fA aA oA pA).foldl applyW cfg0 =
      (numChunk ch pA ChanConf.phase GCmd.phase cfg0).foldl applyW
        ((numChunk ch oA ChanConf.offs GCmd.offs cfg0).foldl applyW
          ((numChunk ch aA ChanConf.ampl GCmd.ampl cfg0).foldl applyW
            ((numChunk ch fA ChanConf.freq GCmd.freq cfg0).foldl applyW
              ((wvChunk ch wv cfg0).foldl applyW cfg0)))) := by
    simp [expW5, List.foldl_append]
  unfold genBlocks
  rw [run_chunk (wvB_chunk ch wv cfg0) 0]
  rw [run_chunk (numB_chunk ch fA ChanConf.freq GCmd.freq _) _ _]
  rw [numChunk_congr pf]
  rw [run_chunk (numB_chunk ch aA ChanConf.ampl GCmd.ampl _) _ _]
  rw [numChunk_congr pa]
  rw [run_chunk (numB_chunk ch oA ChanConf.offs GCmd.offs _) _ _]
  rw [numChunk_congr po]
  rw [run_chunk (numB_chunk ch pA ChanConf.phase GCmd.phase _) _ _]
  rw [numChunk_congr pp]
  rw [hcfg5]
  obtain ⟨hke, hkw, hkc⟩ := runFields_k_irrel [dutyB ch dA wv, symmB ch sA wv]
    (0 + (wvChunk ch wv cfg0).length + (numChunk ch fA ChanConf.freq GCmd.freq cfg0).length +
      (numChunk ch aA ChanConf.ampl GCmd.ampl cfg0).length +
      (numChunk ch oA ChanConf.offs GCmd.offs cfg0).length +
      (numChunk ch pA ChanConf.phase GCmd.phase cfg0).length) 0
    ((numChunk ch pA ChanConf.phase GCmd.phase cfg0).foldl applyW
      ((numChunk ch oA ChanConf.offs GCmd.offs cfg0).foldl applyW
        ((numChunk ch aA ChanConf.ampl GCmd.ampl cfg0).foldl applyW
          ((numChunk ch fA ChanConf.freq GCmd.freq cfg0).foldl applyW
            ((wvChunk ch wv cfg0).foldl applyW cfg0)))))
  refine ⟨?_, ?_, ?_⟩
  · exact hke
  · rw [show expW5 cfg0 ch wv fA aA oA pA =
      wvChunk ch wv cfg0 ++ (numChunk ch fA ChanConf.freq GCmd.freq cfg0 ++
        (numChunk ch aA ChanConf.ampl GCmd.ampl cfg0 ++
          (numChunk ch oA ChanConf.offs GCmd.offs cfg0 ++
            numChunk ch pA ChanConf.phase GCmd.phase cfg0)))
      from by simp [expW5, List.append_assoc]]
    simp only [List.append_assoc]
    rw [hkw]
  · exact hkc

theorem expW5_cmdF (cfg0 : GenConfig) (ch : Nat) (wv : String) (fA aA oA pA : Option Rat) :
    ∀ c ∈ expW5 cfg0 ch wv fA aA oA pA, cmdF c ≤ 4 := by
  unfold expW5
  refine List.forall_mem_append.mpr ⟨List.forall_mem_append.mpr
    ⟨List.forall_mem_append.mpr ⟨List.forall_mem_append.mpr
      ⟨fun c hc => ?_, fun c hc => ?_⟩, fun c hc => ?_⟩, fun c hc => ?_⟩, fun c hc => ?_⟩
  · have := wvChunk_cmdF c hc
    omega
  · have hset : ∀ c ∈ numChunk ch fA ChanConf.freq GCmd.freq cfg0, cmdF c = 1 :=
      numChunk_cmdF (fun x v => rfl)
    have := hset c hc
    omega
  · have hset : ∀ c ∈ numChunk ch aA ChanConf.ampl GCmd.ampl cfg0, cmdF c = 2 :=
      numChunk_cmdF (fun x v => rfl)
    have := hset c hc
    omega
  · have hset : ∀ c ∈ numChunk ch oA ChanConf.offs GCmd.offs cfg0, cmdF c = 3 :=
      numChunk_cmdF (fun x v => rfl)
    have := hset c hc
    omega
  · have hset : ∀ c ∈ numChunk ch pA ChanConf.phase GCmd.phase cfg0, cmdF c = 4 :=
      numChunk_cmdF (fun x v => rfl)
    have := hset c hc
    omega

theorem cfg5_pres_duty (cfg0 : GenConfig) (ch : Nat) (wv : String) (fA aA oA pA : Option Rat) :
    (getChan ((expW5 cfg0 ch wv fA aA oA pA).foldl applyW cfg0) ch).duty =
      (getChan cfg0 ch).duty :=
  fold_pres_duty (fun c hc => by have := expW5_cmdF cfg0 ch wv fA aA oA pA c hc; omega) cfg0 ch

theorem cfg5_pres_symm (cfg0 : GenConfig) (ch : Nat) (wv : String) (fA aA oA pA : Option Rat) :
    (getChan ((expW5 cfg0 ch wv fA aA oA pA).foldl applyW cfg0) ch).symm =
      (getChan cfg0 ch).symm :=
  fold_pres_symm (fun c hc => by have := expW5_cmdF cfg0 ch wv fA aA oA pA c hc; omega) cfg0 ch

/-- Full characterization of an error-free `Gen.re_config_output` run
under a perfect transport: the run succeeds, writes exactly the expected
per-field commands, and the final cache is the initial one with exactly
those writes applied. -/
theorem gen_master (ch : Nat) (wv : String) (fA aA oA pA dA sA : Option Rat)
    (cfg0 : GenConfig)
    (hd : dA = none ∨ (wv = "PULS" ∧ (getChan cfg0 ch).duty.isSome))
    (hsy : sA = none ∨ wv = "RAMP") :
    (runFields trOK 0 cfg0 (genBlocks ch wv fA aA oA pA dA sA)).err = none ∧
    (runFields trOK 0 cfg0 (genBlocks ch wv fA aA oA pA dA sA)).ws =
      expW cfg0 ch wv fA aA oA pA dA sA ∧
    (runFields trOK 0 cfg0 (genBlocks ch wv fA aA oA pA dA sA)).cfg =
      (expW cfg0 ch wv fA aA oA pA dA sA).foldl applyW cfg0 := by
  obtain ⟨hke, hkw, hkc⟩ := gen_run5 ch wv fA aA oA pA dA sA cfg0
  have pd := cfg5_pres_duty cfg0 ch wv fA aA oA pA
  have ps := cfg5_pres_symm cfg0 ch wv fA aA oA pA
  have hd5 : dA = none ∨ (wv = "PULS" ∧
      (getChan ((expW5 cfg0 ch wv fA aA oA pA).foldl applyW cfg0) ch).duty.isSome) := by
    rcases hd with hd | ⟨h1, h2⟩
    · exact Or.inl hd
    · exact Or.inr ⟨h1, by rw [pd]; exact h2⟩
  rw [run_chunk (dutyB_chunk ch dA wv _ hd5) 0 [symmB ch sA wv]] at hke hkw hkc
  rw [dutyChunk_congr pd] at hke hkw hkc
  have ps6 : (getChan ((dutyChunk ch dA cfg0).foldl applyW
      ((expW5 cfg0 ch wv fA aA oA pA).foldl applyW cfg0)) ch).symm =
      (getChan cfg0 ch).symm := by
    rw [fold_pres_symm (fun c hc => by have := dutyChunk_cmdF c hc; omega), ps]
  rw [run_chunk (symmB_chunk ch sA wv _ hsy) _ []] at hke hkw hkc
  rw [symmChunk_congr ps6] at hke hkw hkc
  refine ⟨?_, ?_, ?_⟩
  · rw [hke]
    simp [runFields]
  · rw [hkw]
    simp [expW, List.append_assoc, runFields]
  · rw [hkc]
    simp [expW, List.foldl_append, runFields]

/-- An error-free run forces the duty-cycle and symmetry validity
conditions. -/
theorem gen_nec (ch : Nat) (wv : String) (fA aA oA pA dA sA : Option Rat)
    (cfg0 : GenConfig)
    (herr : (runFields trOK 0 cfg0 (genBlocks ch wv fA aA oA pA dA sA)).err = none) :
    (dA = none ∨ (wv = "PULS" ∧ (getChan cfg0 ch).duty.isSome)) ∧
      (sA = none ∨ wv = "RAMP") := by
  obtain ⟨hke, -, -⟩ := gen_run5 ch wv fA aA oA pA dA sA cfg0
  rw [herr] at hke
  have pd := cfg5_pres_duty cfg0 ch wv fA aA oA pA
  constructor
  · rcases dA with _ | d
    · exact Or.inl rfl
    · by_cases hw : wv = "PULS"
      · cases hdc : (getChan cfg0 ch).duty with
        | none =>
          exfalso
          have hact : (dutyB ch (some d) wv).act
              ((expW5 cfg0 ch wv fA aA oA pA).foldl applyW cfg0) = .fail .keyDuty := by
            subst hw
            simp [dutyB, pd, hdc]
          rw [runFields_fail hact trOK 0 [symmB ch sA wv]] at hke
          simp at hke
        | some dc => exact Or.inr ⟨hw, by simp [hdc]⟩
      · exfalso
        have hact : (dutyB ch (some d) wv).act
            ((expW5 cfg0 ch wv fA aA oA pA).foldl applyW cfg0) = .fail .valueDuty := by
          simp [dutyB, hw]
        rw [runFields_fail hact trOK 0 [symmB ch sA wv]] at hke
        simp at hke
  · rcases sA with _ | sv
    · exact Or.inl rfl
    · by_cases hw : wv = "RAMP"
      · exact Or.inr hw
      · exfalso
        have hsf : ∀ cfg', (symmB ch (some sv) wv).act cfg' = .fail .valueSymm :=
          fun cfg' => by simp [symmB, hw]
        cases hact : (dutyB ch dA wv).act
            ((expW5 cfg0 ch wv fA aA oA pA).foldl applyW cfg0) with
        | skip =>
          rw [runFields_skip hact trOK 0 [symmB ch (some sv) wv]] at hke
          rw [runFields_fail (hsf _) trOK 0 []] at hke
          simp at hke
        | fail e =>
          rw [runFields_fail hact trOK 0 [symmB ch (some sv) wv]] at hke
          simp at hke
        | write c =>
          rw [runFields_write_ok hact (trOK_eq 0) [symmB ch (some sv) wv]] at hke
          rw [runFields_fail (hsf _) trOK 1 []] at hke
          simp at hke

theorem wvChunk_length (ch : Nat) (wv : String) (cfg : GenConfig) :
    (wvChunk ch wv cfg).length = if (getChan cfg ch).wave ≠ wv then 1 else 0 := by
  by_cases h : (getChan cfg ch).wave = wv <;> simp [wvChunk, h]

theorem numChunk_length (ch : Nat) (arg : Option Rat) (get : ChanConf → Rat)
    (mk : Nat → Rat → GCmd) (cfg : GenConfig) :
    (numChunk ch arg get mk cfg).length =
      match arg with
      | none => 0
      | some v => if get (getChan cfg ch) ≠ v then 1 else 0 := by
  rcases arg with _ | v
  · rfl
  · by_cases h : get (getChan cfg ch) = v <;> simp [numChunk, h]

theorem dutyChunk_length (ch : Nat) (arg : Option Rat) (cfg : GenConfig) :
    (dutyChunk ch arg cfg).length =
      match arg, (getChan cfg ch).duty with
      | some d, some dc => if dc ≠ d then 1 else 0
      | _, _ => 0 := by
  rcases arg with _ | d
  · cases hd : (getChan cfg ch).duty <;> simp [dutyChunk, hd]
  · cases hd : (getChan cfg ch).duty with
    | none => simp [dutyChunk, hd]
    | some dc => by_cases hdc : dc = d <;> simp [dutyChunk, hd, hdc]

theorem symmChunk_length (ch : Nat) (arg : Option Rat) (cfg : GenConfig) :
    (symmChunk ch arg cfg).length =
      match arg with
      | none => 0
      | some sv => if (getChan cfg ch).symm ≠ sv then 1 else 0 := by
  rcases arg with _ | sv
  · rfl
  · by_cases h : (getChan cfg ch).symm = sv <;> simp [symmChunk, h]

theorem expW_length (cfg0 : GenConfig) (ch : Nat) (wv : String)
    (fA aA oA pA dA sA : Option Rat) :
    (expW cfg0 ch wv fA aA oA pA dA sA).length =
      diffCount cfg0 ch wv fA aA oA pA dA sA := by
  simp only [expW, expW5, List.length_append, wvChunk_length, numChunk_length,
    dutyChunk_length, symmChunk_length, diffCount]

theorem wvChunk_sub (ch : Nat) (wv : String) (cfg : GenConfig) :
    List.Sublist ((wvChunk ch wv cfg).map cmdF) ([0] : List Nat) := by
  by_cases h : (getChan cfg ch).wave = wv <;> simp [wvChunk, h, cmdF]

theorem numChunk_sub (ch : Nat) (arg : Option Rat) (get : ChanConf → Rat)
    (mk : Nat → Rat → GCmd) {j : Nat} (hmk : ∀ x v, cmdF (mk x v) = j)
    (cfg : GenConfig) : List.Sublist ((numChunk ch arg get mk cfg).map cmdF) ([j] : List Nat) := by
  rcases arg with _ | v
  · simp [numChunk]
  · by_cases h : get (getChan cfg ch) = v <;> simp [numChunk, h, hmk]

theorem dutyChunk_sub (ch : Nat) (arg : Option Rat) (cfg : GenConfig) :
    List.Sublist ((dutyChunk ch arg cfg).map cmdF) ([5] : List Nat) := by
  rcases arg with _ | d
  · simp [dutyChunk]
  · cases hd : (getChan cfg ch).duty with
    | none => simp [dutyChunk, hd]
    | some dc => by_cases hdc : dc = d <;> simp [dutyChunk, hd, hdc, cmdF]

theorem symmChunk_sub (ch : Nat) (arg : Option Rat) (cfg : GenConfig) :
    List.Sublist ((symmChunk ch arg cfg).map cmdF) ([6] : List Nat) := by
  rcases arg with _ | sv
  · simp [symmChunk]
  · by_cases h : (getChan cfg ch).symm = sv <;> simp [symmChunk, h, cmdF]

theorem expW_nodup (cfg0 : GenConfig) (ch : Nat) (wv : String)
    (fA aA oA pA dA sA : Option Rat) :
    ((expW cfg0 ch wv fA aA oA pA dA sA).map cmdF).Nodup := by
  have h2 : List.Sublist ((numChunk ch fA ChanConf.freq GCmd.freq cfg0).map cmdF)
      ([1] : List Nat) :=
    numChunk_sub ch fA ChanConf.freq GCmd.freq (fun x v => rfl) cfg0
  have h3 : List.Sublist ((numChunk ch aA ChanConf.ampl GCmd.ampl cfg0).map cmdF)
      ([2] : List Nat) :=
    numChunk_sub ch aA ChanConf.ampl GCmd.ampl (fun x v => rfl) cfg0
  have h4 : List.Sublist ((numChunk ch oA ChanConf.offs GCmd.offs cfg0).map cmdF)
      ([3] : List Nat) :=
    numChunk_sub ch oA ChanConf.offs GCmd.offs (fun x v => rfl) cfg0
  have h5 : List.Sublist ((numChunk ch pA ChanConf.phase GCmd.phase cfg0).map cmdF)
      ([4] : List Nat) :=
    numChunk_sub ch pA ChanConf.phase GCmd.phase (fun x v => rfl) cfg0
  have hsub : List.Sublist ((expW cfg0 ch wv fA aA oA pA dA sA).map cmdF)
      ([0, 1, 2, 3, 4, 5, 6] : List Nat) := by
    simp only [expW, expW5, List.map_append]
    exact ((((((wvChunk_sub ch wv cfg0).append h2).append h3).append h4).append h5).append
      (dutyChunk_sub ch dA cfg0)).append (symmChunk_sub ch sA cfg0)
  exact List.Nodup.sublist hsub (by decide)

/-- Claim C1, counterexample: on the Gen waveform table the normalizer
does NOT return the token of the last matching key.  The input `sinram`
contains the two keys `sin` and `ram` and takes no `c` branch; the last
matching key in iteration order maps to `RAMP`, yet the normalizer
returns `SIN`, because the scan replaced the scanned variable by the
token `SIN` after the first match and later keys never match a token. -/
theorem c1_counterexample :
    pyIn "c" (pyLower "sinram") = false ∧
    matchCount genDic (pyLower "sinram") = 2 ∧
    specLastMatch genDic (pyLower "sinram") = some "RAMP" ∧
    (genWaveform "sinram").1 = "SIN" ∧ ("SIN" : String) ≠ "RAMP" :=
  ⟨by decide, by decide, by decide, by decide, by decide⟩

/-- Claim C1 (amended): for raw inputs not taking the `c` branch that
contain at least two vocabulary keys, the measurement-type normalizer of
`Osci.re_config_measure` returns the token of the LAST matching key in
table iteration order, while the waveform normalizer of
`Gen.re_config_output` returns the token of the FIRST matching key
(its scan overwrites the scanned variable with the canonical token, which
later lower-case keys never match), in both cases without a warning. -/
theorem c1_theorem :
    (∀ mtype tok, pyIn "c" (pyLower mtype) = false →
      2 ≤ matchCount osciDic (pyLower mtype) →
      specLastMatch osciDic (pyLower mtype) = some tok →
      osciType mtype = some (tok, false)) ∧
    (∀ s tok, pyIn "c" (pyLower s) = false →
      2 ≤ matchCount genDic (pyLower s) →
      specFirstMatch genDic (pyLower s) = some tok →
      genWaveform s = (tok, false)) := by
  constructor
  · intro mtype tok hc _ h
    exact osciType_eq_lastMatch hc h
  · intro s tok hc _ h
    exact genWaveform_eq_firstMatch hc h

/-- Witness for the amended claim C1 at the concrete inputs `min max`
(two Osci keys, last wins) and `sinram` (two Gen keys, first wins). -/
theorem c1_witness :
    osciType "min max" = some ("MAXI", false) ∧ genWaveform "sinram" = ("SIN", false) :=
  ⟨c1_theorem.1 "min max" "MAXI" (by decide) (by decide) (by decide),
   c1_theorem.2 "sinram" "SIN" (by decide) (by decide) (by decide)⟩

/-- Claim C2: for inputs matching no vocabulary key (and without a `c`),
the Gen waveform normalizer returns the default token `SIN` with a
warning and the call goes on; the Osci measurement-type normalizer,
however, raises `UnboundLocalError` at the `aux not in dic.values()`
test (the local `aux` was never assigned), so `Osci.re_config_measure`
stops before issuing any bus operation, contradicting the claimed
`FREQ` fallback; the fallback branch printing the warning is dead code. -/
theorem c2_theorem :
    (∀ s, pyIn "c" (pyLower s) = false →
      (∀ kv ∈ genDic, pyIn kv.1 (pyLower s) = false) →
      genWaveform s = ("SIN", true)) ∧
    osciType "zzz" = none ∧
    (∀ cache dev channel,
      (Osci.re_config_measure cache dev "zzz" channel).err = true ∧
      (Osci.re_config_measure cache dev "zzz" channel).ops = [] ∧
      (Osci.re_config_measure cache dev "zzz" channel).cache = cache) := by
  refine ⟨fun s hc h => genWaveform_default hc h, by decide, ?_⟩
  intro cache dev channel
  have h0 : osciType "zzz" = none := by decide
  unfold Osci.re_config_measure
  rw [h0]
  exact ⟨rfl, rfl, rfl⟩

/-- Witness for claim C2 at the concrete unmatched input `zzz`. -/
theorem c2_witness :
    genWaveform "zzz" = ("SIN", true) ∧
    (Osci.re_config_measure ⟨1, "FREQ"⟩ ⟨1, "FREQ"⟩ "zzz" 1).err = true :=
  ⟨c2_theorem.1 "zzz" (by decide) (by decide),
   (c2_theorem.2.2 ⟨1, "FREQ"⟩ ⟨1, "FREQ"⟩ 1).1⟩

/-- Claim C8: an out-of-range channel argument is coerced to channel 1
with a diagnostic and never rejected: the call behaves exactly like the
same call on channel 1 (same writes, same cache, same outcome) and the
channel warning is emitted, for both reconcilers. -/
theorem c8_theorem :
    (∀ (n : Nat) (tr : Nat → Bool) (cfg0 : GenConfig) (channel : Nat)
        (wvA : Option String) (fA aA oA pA dA sA : Option Rat),
      ¬(1 ≤ channel ∧ channel ≤ n) →
      (Gen.re_config_output n tr cfg0 channel wvA fA aA oA pA dA sA).writes =
        (Gen.re_config_output n tr cfg0 1 wvA fA aA oA pA dA sA).writes ∧
      (Gen.re_config_output n tr cfg0 channel wvA fA aA oA pA dA sA).cfg =
        (Gen.re_config_output n tr cfg0 1 wvA fA aA oA pA dA sA).cfg ∧
      (Gen.re_config_output n tr cfg0 channel wvA fA aA oA pA dA sA).err =
        (Gen.re_config_output n tr cfg0 1 wvA fA aA oA pA dA sA).err ∧
      (Gen.re_config_output n tr cfg0 channel wvA fA aA oA pA dA sA).chanWarn = true) ∧
    (∀ (cache : OsciConf) (dev : OsciDev) (mtype : String) (channel : Nat),
      ¬(channel = 1 ∨ channel = 2) →
      (Osci.re_config_measure cache dev mtype channel).cache =
        (Osci.re_config_measure cache dev mtype 1).cache ∧
      (Osci.re_config_measure cache dev mtype channel).dev =
        (Osci.re_config_measure cache dev mtype 1).dev ∧
      (Osci.re_config_measure cache dev mtype channel).ops =
        (Osci.re_config_measure cache dev mtype 1).ops ∧
      (Osci.re_config_measure cache dev mtype channel).err =
        (Osci.re_config_measure cache dev mtype 1).err ∧
      (Osci.re_config_measure cache dev mtype channel).chanWarn = true) := by
  constructor
  · intro n tr cfg0 channel wvA fA aA oA pA dA sA h
    have hch : coerceCh n channel = 1 := by
      unfold coerceCh
      rw [if_neg h]
    have hch1 : coerceCh n 1 = 1 := by
      unfold coerceCh
      split <;> rfl
    refine ⟨?_, ?_, ?_, ?_⟩ <;>
      simp only [Gen.re_config_output, hch, hch1, mkGRes]
    simp [h]
  · intro cache dev mtype channel h
    have hch : osciCh channel = 1 := by
      unfold osciCh
      rw [if_neg h]
    have hch1 : osciCh 1 = 1 := by
      unfold osciCh
      simp
    cases hm : osciType mtype with
    | none =>
      refine ⟨?_, ?_, ?_, ?_, ?_⟩ <;> simp [Osci.re_config_measure, hm, h]
    | some auxtw =>
      obtain ⟨aux, tw⟩ := auxtw
      refine ⟨?_, ?_, ?_, ?_, ?_⟩ <;>
        simp [Osci.re_config_measure, hm, hch, hch1, h]

/-- Witness for claim C8: channel 5 on a 2-channel generator and on the
oscilloscope behaves as channel 1 and warns. -/
theorem c8_witness :
    ((Gen.re_config_output 2 trOK cfgW 5 (some "squ") none none none none none none).writes =
      (Gen.re_config_output 2 trOK cfgW 1 (some "squ") none none none none none none).writes ∧
    (Gen.re_config_output 2 trOK cfgW 5 (some "squ") none none none none none none).cfg =
      (Gen.re_config_output 2 trOK cfgW 1 (some "squ") none none none none none none).cfg ∧
    (Gen.re_config_output 2 trOK cfgW 5 (some "squ") none none none none none none).err =
      (Gen.re_config_output 2 trOK cfgW 1 (some "squ") none none none none none none).err ∧
    (Gen.re_config_output 2 trOK cfgW 5 (some "squ") none none none none none none).chanWarn =
      true) ∧
    ((Osci.re_config_measure ⟨1, "FREQ"⟩ ⟨1, "FREQ"⟩ "min" 5).cache =
      (Osci.re_config_measure ⟨1, "FREQ"⟩ ⟨1, "FREQ"⟩ "min" 1).cache ∧
    (Osci.re_config_measure ⟨1, "FREQ"⟩ ⟨1, "FREQ"⟩ "min" 5).dev =
      (Osci.re_config_measure ⟨1, "FREQ"⟩ ⟨1, "FREQ"⟩ "min" 1).dev ∧
    (Osci.re_config_measure ⟨1, "FREQ"⟩ ⟨1, "FREQ"⟩ "min" 5).ops =
      (Osci.re_config_measure ⟨1, "FREQ"⟩ ⟨1, "FREQ"⟩ "min" 1).ops ∧
    (Osci.re_config_measure ⟨1, "FREQ"⟩ ⟨1, "FREQ"⟩ "min" 5).err =
      (Osci.re_config_measure ⟨1, "FREQ"⟩ ⟨1, "FREQ"⟩ "min" 1).err ∧
    (Osci.re_config_measure ⟨1, "FREQ"⟩ ⟨1, "FREQ"⟩ "min" 5).chanWarn = true) :=
  ⟨c8_theorem.1 2 trOK cfgW 5 (some "squ") none none none none none none (by decide),
   c8_theorem.2 ⟨1, "FREQ"⟩ ⟨1, "FREQ"⟩ "min" 5 (by decide)⟩

/-- Claim C4, counterexample: `Osci.re_config_measure` is not
write-through: after its writes it re-queries the device to refresh the
whole cache, so its bus trace contains queries (here a type write
followed by the two refresh queries of `get_config_measure`). -/
theorem c4_counterexample :
    (Osci.re_config_measure ⟨1, "FREQ"⟩ ⟨1, "FREQ"⟩ "min" 1).ops =
      [OOp.wTyp "MINI", OOp.qSou, OOp.qTyp] ∧
    (Osci.re_config_measure ⟨1, "FREQ"⟩ ⟨1, "FREQ"⟩ "min" 1).ops.filter isQueryOp ≠ [] :=
  ⟨by decide, by decide⟩

/-- Claim C4 (amended): `Gen.re_config_output` is write-through — for
any transport outcome its final cache is the initial cache with exactly
the successful writes applied, with no device read; `Osci.re_config_measure`
instead refreshes its cache by re-querying the device after its writes:
its bus trace is the writes followed by the two queries, and the final
cache is the read-back device state. -/
theorem c4_theorem :
    (∀ (n : Nat) (tr : Nat → Bool) (cfg0 : GenConfig) (channel : Nat)
        (wvA : Option String) (fA aA oA pA dA sA : Option Rat),
      (Gen.re_config_output n tr cfg0 channel wvA fA aA oA pA dA sA).cfg =
        (Gen.re_config_output n tr cfg0 channel wvA fA aA oA pA dA sA).writes.foldl
          applyW cfg0) ∧
    (∀ (cache : OsciConf) (dev : OsciDev) (mtype : String) (channel : Nat)
        (tok : String) (tw : Bool), osciType mtype = some (tok, tw) →
      (Osci.re_config_measure cache dev mtype channel).cache =
        Osci.get_config_measure (Osci.re_config_measure cache dev mtype channel).dev ∧
      ∃ ws, (Osci.re_config_measure cache dev mtype channel).ops =
          ws ++ [OOp.qSou, OOp.qTyp] ∧ ∀ o ∈ ws, isQueryOp o = false) := by
  constructor
  · intro n tr cfg0 channel wvA fA aA oA pA dA sA
    exact runFields_cfg_foldl tr 0 cfg0
      (genBlocks (coerceCh n channel)
        (wvResolve cfg0 (coerceCh n channel) wvA).1 fA aA oA pA dA sA)
  · intro cache dev mtype channel tok tw hm
    unfold Osci.re_config_measure
    rw [hm]
    refine ⟨rfl, ⟨(souStep cache dev (osciCh channel)).2 ++
      (typStep cache (souStep cache dev (osciCh channel)).1 tok).2, rfl, ?_⟩⟩
    refine List.forall_mem_append.mpr ⟨fun o ho => ?_, fun o ho => ?_⟩
    · by_cases hs : cache.src = osciCh channel <;> simp [souStep, hs] at ho <;> simp_all [isQueryOp]
    · by_cases ht : cache.typ = tok <;> simp [typStep, ht] at ho <;> simp_all [isQueryOp]

/-- Witness for the amended claim C4 at concrete inputs. -/
theorem c4_witness :
    ((Gen.re_config_output 2 trOK cfgW 1 (some "squ") none none none none none none).cfg =
      (Gen.re_config_output 2 trOK cfgW 1
        (some "squ") none none none none none none).writes.foldl applyW cfgW) ∧
    ((Osci.re_config_measure ⟨1, "FREQ"⟩ ⟨1, "FREQ"⟩ "min" 1).cache =
      Osci.get_config_measure (Osci.re_config_measure ⟨1, "FREQ"⟩ ⟨1, "FREQ"⟩ "min" 1).dev ∧
    ∃ ws, (Osci.re_config_measure ⟨1, "FREQ"⟩ ⟨1, "FREQ"⟩ "min" 1).ops =
        ws ++ [OOp.qSou, OOp.qTyp] ∧ ∀ o ∈ ws, isQueryOp o = false) :=
  ⟨c4_theorem.1 2 trOK cfgW 1 (some "squ") none none none none none none,
   c4_theorem.2 ⟨1, "FREQ"⟩ ⟨1, "FREQ"⟩ "min" 1 "MINI" false (by decide)⟩

/-- Claim C5: an error-free reconciliation call issues exactly one write
command per supplied (non-`None`) field whose desired value differs from
the cached value — `k` writes for `k` differing fields, each targeting a
distinct field — and mutates the cache exactly by those writes: fields
equal to the cache or supplied as `None` cause no command and no cache
mutation.  For `Osci.re_config_measure` the bus trace is exactly the
conditional source and type writes followed by the refresh queries. -/
theorem c5_theorem :
    (∀ (n : Nat) (cfg0 : GenConfig) (channel : Nat) (wvA : Option String)
        (fA aA oA pA dA sA : Option Rat),
      (Gen.re_config_output n trOK cfg0 channel wvA fA aA oA pA dA sA).err = none →
      (Gen.re_config_output n trOK cfg0 channel wvA fA aA oA pA dA sA).writes =
        expW cfg0 (coerceCh n channel) (wvResolve cfg0 (coerceCh n channel) wvA).1
          fA aA oA pA dA sA ∧
      (Gen.re_config_output n trOK cfg0 channel wvA fA aA oA pA dA sA).writes.length =
        diffCount cfg0 (coerceCh n channel) (wvResolve cfg0 (coerceCh n channel) wvA).1
          fA aA oA pA dA sA ∧
      ((Gen.re_config_output n trOK cfg0 channel wvA fA aA oA pA dA sA).writes.map
        cmdF).Nodup ∧
      (Gen.re_config_output n trOK cfg0 channel wvA fA aA oA pA dA sA).cfg =
        (Gen.re_config_output n trOK cfg0 channel wvA fA aA oA pA dA sA).writes.foldl
          applyW cfg0) ∧
    (∀ (cache : OsciConf) (dev : OsciDev) (mtype : String) (channel : Nat)
        (tok : String) (tw : Bool), osciType mtype = some (tok, tw) →
      (Osci.re_config_measure cache dev mtype channel).ops =
        (if cache.src ≠ osciCh channel then [OOp.wSou (osciCh channel)] else []) ++
        (if cache.typ ≠ tok then [OOp.wTyp tok] else []) ++ [OOp.qSou, OOp.qTyp]) := by
  constructor
  · intro n cfg0 channel wvA fA aA oA pA dA sA herr
    have herr' : (runFields trOK 0 cfg0
        (genBlocks (coerceCh n channel) (wvResolve cfg0 (coerceCh n channel) wvA).1
          fA aA oA pA dA sA)).err = none := herr
    obtain ⟨hd, hsy⟩ := gen_nec _ _ fA aA oA pA dA sA cfg0 herr'
    obtain ⟨-, hw, hc⟩ := gen_master _ _ fA aA oA pA dA sA cfg0 hd hsy
    have hw' : (Gen.re_config_output n trOK cfg0 channel wvA fA aA oA pA dA sA).writes =
        expW cfg0 (coerceCh n channel) (wvResolve cfg0 (coerceCh n channel) wvA).1
          fA aA oA pA dA sA := hw
    refine ⟨hw', ?_, ?_, ?_⟩
    · rw [hw']
      exact expW_length cfg0 _ _ fA aA oA pA dA sA
    · rw [hw']
      exact expW_nodup cfg0 _ _ fA aA oA pA dA sA
    · rw [hw']
      exact hc
  · intro cache dev mtype channel tok tw hm
    unfold Osci.re_config_measure
    rw [hm]
    by_cases hs : cache.src = osciCh channel <;> by_cases ht : cache.typ = tok <;>
      simp [souStep, typStep, hs, ht]

/-- Witness for claim C5: three differing fields (waveform, frequency,
duty cycle) produce exactly the three expected writes. -/
theorem c5_witness :
    ((Gen.re_config_output 2 trOK cfgW 1 (some "squ") (some 2000) none none none
        (some 75) none).writes =
      expW cfgW (coerceCh 2 1) (wvResolve cfgW (coerceCh 2 1) (some "squ")).1
        (some 2000) none none none (some 75) none ∧
    (Gen.re_config_output 2 trOK cfgW 1 (some "squ") (some 2000) none none none
        (some 75) none).writes.length =
      diffCount cfgW (coerceCh 2 1) (wvResolve cfgW (coerceCh 2 1) (some "squ")).1
        (some 2000) none none none (some 75) none ∧
    ((Gen.re_config_output 2 trOK cfgW 1 (some "squ") (some 2000) none none none
        (some 75) none).writes.map cmdF).Nodup ∧
    (Gen.re_config_output 2 trOK cfgW 1 (some "squ") (some 2000) none none none
        (some 75) none).cfg =
      (Gen.re_config_output 2 trOK cfgW 1 (some "squ") (some 2000) none none none
        (some 75) none).writes.foldl applyW cfgW) ∧
    (Osci.re_config_measure ⟨1, "FREQ"⟩ ⟨1, "FREQ"⟩ "min" 1).ops =
      (if (⟨1, "FREQ"⟩ : OsciConf).src ≠ osciCh 1 then [OOp.wSou (osciCh 1)] else []) ++
      (if (⟨1, "FREQ"⟩ : OsciConf).typ ≠ "MINI" then [OOp.wTyp "MINI"] else []) ++
      [OOp.qSou, OOp.qTyp] :=
  ⟨c5_theorem.1 2 cfgW 1 (some "squ") (some 2000) none none none (some 75) none (by decide),
   c5_theorem.2 ⟨1, "FREQ"⟩ ⟨1, "FREQ"⟩ "min" 1 "MINI" false (by decide)⟩

theorem genBlocks_rest_not_shape (ch : Nat) (wv : String) (fA aA oA pA dA sA : Option Rat) :
    ∀ b ∈ [numB ch fA ChanConf.freq GCmd.freq, numB ch aA ChanConf.ampl GCmd.ampl,
      numB ch oA ChanConf.offs GCmd.offs, numB ch pA ChanConf.phase GCmd.phase,
      dutyB ch dA wv, symmB ch sA wv],
      ∀ cfg c, b.act cfg = FStep.write c → cmdF c ≠ 0 := by
  intro b hb cfg c hbc
  simp only [List.mem_cons, List.not_mem_nil, or_false] at hb
  rcases hb with rfl | rfl | rfl | rfl | rfl | rfl
  · obtain ⟨v, -, rfl⟩ := numB_writes hbc
    simp [cmdF]
  · obtain ⟨v, -, rfl⟩ := numB_writes hbc
    simp [cmdF]
  · obtain ⟨v, -, rfl⟩ := numB_writes hbc
    simp [cmdF]
  · obtain ⟨v, -, rfl⟩ := numB_writes hbc
    simp [cmdF]
  · obtain ⟨v, -, rfl⟩ := dutyB_writes hbc
    simp [cmdF]
  · obtain ⟨v, -, rfl⟩ := symmB_writes hbc
    simp [cmdF]

/-- Claim C6: reconciliation is idempotent.  A second
`Gen.re_config_output` call with the same arguments on the cache left by
the first (perfect transport, no device change) issues zero writes and
leaves the cache unchanged; a second `Osci.re_config_measure` call
issues zero write operations and leaves cache and device unchanged,
provided the cache accurately mirrored the device at the first call
(which holds for every reachable state, since the Osci cache is always
refreshed from the device). -/
theorem c6_theorem :
    (∀ (n : Nat) (cfg0 : GenConfig) (channel : Nat) (wvA : Option String)
        (fA aA oA pA dA sA : Option Rat),
      (Gen.re_config_output n trOK
        (Gen.re_config_output n trOK cfg0 channel wvA fA aA oA pA dA sA).cfg
        channel wvA fA aA oA pA dA sA).writes = [] ∧
      (Gen.re_config_output n trOK
        (Gen.re_config_output n trOK cfg0 channel wvA fA aA oA pA dA sA).cfg
        channel wvA fA aA oA pA dA sA).cfg =
        (Gen.re_config_output n trOK cfg0 channel wvA fA aA oA pA dA sA).cfg) ∧
    (∀ (cache : OsciConf) (dev : OsciDev) (mtype : String) (channel : Nat),
      cache = Osci.get_config_measure dev →
      (Osci.re_config_measure
        (Osci.re_config_measure cache dev mtype channel).cache
        (Osci.re_config_measure cache dev mtype channel).dev mtype channel).ops.filter
          (fun o => !isQueryOp o) = [] ∧
      (Osci.re_config_measure
        (Osci.re_config_measure cache dev mtype channel).cache
        (Osci.re_config_measure cache dev mtype channel).dev mtype channel).cache =
        (Osci.re_config_measure cache dev mtype channel).cache ∧
      (Osci.re_config_measure
        (Osci.re_config_measure cache dev mtype channel).cache
        (Osci.re_config_measure cache dev mtype channel).dev mtype channel).dev =
        (Osci.re_config_measure cache dev mtype channel).dev) := by
  constructor
  · intro n cfg0 channel wvA fA aA oA pA dA sA
    rcases wvA with _ | s
    · -- waveform omitted: the effective waveform is the cached one and
      -- the waveform block of the first call skips
      have hskip : (wvB (coerceCh n channel) (getChan cfg0 (coerceCh n channel)).wave).act
          cfg0 = .skip := by
        simp [wvB]
      have hrest := genBlocks_rest_not_shape (coerceCh n channel)
        (getChan cfg0 (coerceCh n channel)).wave fA aA oA pA dA sA
      have hpeel : runFields trOK 0 cfg0 (genBlocks (coerceCh n channel)
          (getChan cfg0 (coerceCh n channel)).wave fA aA oA pA dA sA) =
          runFields trOK 0 cfg0 [numB (coerceCh n channel) fA ChanConf.freq GCmd.freq,
            numB (coerceCh n channel) aA ChanConf.ampl GCmd.ampl,
            numB (coerceCh n channel) oA ChanConf.offs GCmd.offs,
            numB (coerceCh n channel) pA ChanConf.phase GCmd.phase,
            dutyB (coerceCh n channel) dA (getChan cfg0 (coerceCh n channel)).wave,
            symmB (coerceCh n channel) sA (getChan cfg0 (coerceCh n channel)).wave] := by
        unfold genBlocks
        exact runFields_skip hskip trOK 0 _
      have hwave : (getChan (runFields trOK 0 cfg0 (genBlocks (coerceCh n channel)
          (getChan cfg0 (coerceCh n channel)).wave fA aA oA pA dA sA)).cfg
            (coerceCh n channel)).wave =
          (getChan cfg0 (coerceCh n channel)).wave := by
        rw [hpeel, runFields_cfg_foldl]
        exact fold_pres_wave
          (fun c hc => by
            have := runFields_ws_prop hrest trOK 0 cfg0 c hc
            omega)
          cfg0 (coerceCh n channel)
      have hidem := runFields_idem
        (genBlocks_stable (coerceCh n channel)
          (getChan cfg0 (coerceCh n channel)).wave fA aA oA pA dA sA)
        (genBlocks_pairwise (coerceCh n channel)
          (getChan cfg0 (coerceCh n channel)).wave fA aA oA pA dA sA) 0 0 cfg0
      constructor
      · simp only [Gen.re_config_output, mkGRes, wvResolve]
        rw [hwave, hidem]
      · simp only [Gen.re_config_output, mkGRes, wvResolve]
        rw [hwave, hidem]
    · have hidem := runFields_idem
        (genBlocks_stable (coerceCh n channel) (genWaveform s).1 fA aA oA pA dA sA)
        (genBlocks_pairwise (coerceCh n channel) (genWaveform s).1 fA aA oA pA dA sA)
        0 0 cfg0
      constructor
      · simp only [Gen.re_config_output, mkGRes, wvResolve]
        rw [hidem]
      · simp only [Gen.re_config_output, mkGRes, wvResolve]
        rw [hidem]
  · intro cache dev mtype channel hacc
    cases hm : osciType mtype with
    | none =>
      refine ⟨?_, ?_, ?_⟩ <;> simp [Osci.re_config_measure, hm]
    | some auxtw =>
      obtain ⟨aux, tw⟩ := auxtw
      have hsrc : (typStep cache (souStep cache dev (osciCh channel)).1 aux).1.src =
          osciCh channel := by
        by_cases hs : cache.src = osciCh channel <;>
          by_cases ht : cache.typ = aux <;>
            simp [souStep, typStep, hs, ht] <;> rw [hacc] at hs <;> exact hs
      have htyp : (typStep cache (souStep cache dev (osciCh channel)).1 aux).1.typ =
          aux := by
        by_cases hs : cache.src = osciCh channel <;>
          by_cases ht : cache.typ = aux <;>
            simp [souStep, typStep, hs, ht] <;> rw [hacc] at ht <;> exact ht
      simp only [Osci.re_config_measure, hm, Osci.get_config_measure]
      generalize hg : (typStep cache (souStep cache dev (osciCh channel)).1 aux).1 = d2
      rw [hg] at hsrc htyp
      refine ⟨?_, ?_, ?_⟩ <;> simp [souStep, typStep, hsrc, htyp, isQueryOp]

/-- Witness for claim C6 at concrete inputs: a second identical call
writes nothing and keeps the cache. -/
theorem c6_witness :
    ((Gen.re_config_output 2 trOK
        (Gen.re_config_output 2 trOK cfgW 1 (some "squ") (some 2000) none none none
          none none).cfg 1 (some "squ") (some 2000) none none none none none).writes = [] ∧
      (Gen.re_config_output 2 trOK
        (Gen.re_config_output 2 trOK cfgW 1 (some "squ") (some 2000) none none none
          none none).cfg 1 (some "squ") (some 2000) none none none none none).cfg =
        (Gen.re_config_output 2 trOK cfgW 1 (some "squ") (some 2000) none none none
          none none).cfg) ∧
    ((Osci.re_config_measure
        (Osci.re_config_measure ⟨1, "FREQ"⟩ ⟨1, "FREQ"⟩ "min" 1).cache
        (Osci.re_config_measure ⟨1, "FREQ"⟩ ⟨1, "FREQ"⟩ "min" 1).dev "min" 1).ops.filter
          (fun o => !isQueryOp o) = [] ∧
      (Osci.re_config_measure
        (Osci.re_config_measure ⟨1, "FREQ"⟩ ⟨1, "FREQ"⟩ "min" 1).cache
        (Osci.re_config_measure ⟨1, "FREQ"⟩ ⟨1, "FREQ"⟩ "min" 1).dev "min" 1).cache =
        (Osci.re_config_measure ⟨1, "FREQ"⟩ ⟨1, "FREQ"⟩ "min" 1).cache ∧
      (Osci.re_config_measure
        (Osci.re_config_measure ⟨1, "FREQ"⟩ ⟨1, "FREQ"⟩ "min" 1).cache
        (Osci.re_config_measure ⟨1, "FREQ"⟩ ⟨1, "FREQ"⟩ "min" 1).dev "min" 1).dev =
        (Osci.re_config_measure ⟨1, "FREQ"⟩ ⟨1, "FREQ"⟩ "min" 1).dev) :=
  ⟨c6_theorem.1 2 cfgW 1 (some "squ") (some 2000) none none none none none,
   c6_theorem.2 ⟨1, "FREQ"⟩ ⟨1, "FREQ"⟩ "min" 1 (by decide)⟩

/-- Claim C7: if the transport fails exactly at the i-th write of an
otherwise successful `Gen.re_config_output` call, the exception
propagates (`err` is the transport failure carrying that command), the
fields written before i keep their updated cache entries (the final
cache is the initial one with exactly the first i writes applied, so
field i and all later fields are unchanged), the successful writes are
exactly the first i ones, and no write after the failing one is ever
attempted (i + 1 attempts in total). -/
theorem c7_theorem :
    ∀ (n : Nat) (cfg0 : GenConfig) (channel : Nat) (wvA : Option String)
      (fA aA oA pA dA sA : Option Rat) (i : Nat) (c : GCmd),
      (Gen.re_config_output n trOK cfg0 channel wvA fA aA oA pA dA sA).err = none →
      (Gen.re_config_output n trOK cfg0 channel wvA fA aA oA pA dA sA).writes[i]? =
        some c →
      (Gen.re_config_output n (fun j => !decide (j = i)) cfg0 channel wvA fA aA oA pA
        dA sA).err = some (GErr.transport c) ∧
      (Gen.re_config_output n (fun j => !decide (j = i)) cfg0 channel wvA fA aA oA pA
        dA sA).writes =
        (Gen.re_config_output n trOK cfg0 channel wvA fA aA oA pA dA sA).writes.take i ∧
      (Gen.re_config_output n (fun j => !decide (j = i)) cfg0 channel wvA fA aA oA pA
        dA sA).cfg =
        ((Gen.re_config_output n trOK cfg0 channel wvA fA aA oA pA
          dA sA).writes.take i).foldl applyW cfg0 ∧
      (Gen.re_config_output n (fun j => !decide (j = i)) cfg0 channel wvA fA aA oA pA
        dA sA).attempts = i + 1 := by
  intro n cfg0 channel wvA fA aA oA pA dA sA i c herr hi
  have herr' : (runFields trOK 0 cfg0
      (genBlocks (coerceCh n channel) (wvResolve cfg0 (coerceCh n channel) wvA).1
        fA aA oA pA dA sA)).err = none := herr
  have hi' : (runFields trOK 0 cfg0
      (genBlocks (coerceCh n channel) (wvResolve cfg0 (coerceCh n channel) wvA).1
        fA aA oA pA dA sA)).ws[i]? = some c := hi
  have hcut := runFields_cut 0 cfg0 herr' i c hi'
  have hfun : (fun j => !decide (j = i)) = (fun j => !decide (j = 0 + i)) := by
    funext j
    rw [Nat.zero_add]
  simp only [Gen.re_config_output, mkGRes]
  rw [hfun]
  refine ⟨?_, ?_, ?_, ?_⟩ <;> rw [hcut] <;> simp

/-- Witness for claim C7: failing the second write (the frequency
command) of a three-write call. -/
theorem c7_witness :
    (Gen.re_config_output 2 (fun j => !decide (j = 1)) cfgW 1 (some "squ") (some 2000)
      none none none (some 75) none).err = some (GErr.transport (GCmd.freq 1 2000)) ∧
    (Gen.re_config_output 2 (fun j => !decide (j = 1)) cfgW 1 (some "squ") (some 2000)
      none none none (some 75) none).writes =
      (Gen.re_config_output 2 trOK cfgW 1 (some "squ") (some 2000)
        none none none (some 75) none).writes.take 1 ∧
    (Gen.re_config_output 2 (fun j => !decide (j = 1)) cfgW 1 (some "squ") (some 2000)
      none none none (some 75) none).cfg =
      ((Gen.re_config_output 2 trOK cfgW 1 (some "squ") (some 2000)
        none none none (some 75) none).writes.take 1).foldl applyW cfgW ∧
    (Gen.re_config_output 2 (fun j => !decide (j = 1)) cfgW 1 (some "squ") (some 2000)
      none none none (some 75) none).attempts = 1 + 1 :=
  c7_theorem 2 cfgW 1 (some "squ") (some 2000) none none none (some 75) none 1
    (GCmd.freq 1 2000) (by decide) (by decide)

/-- Claim C3: supplying a non-`None` duty cycle (resp. symmetry) while
the effective waveform — the cached one, or the one being applied in the
same call, since the waveform block runs first — is not `PULS` (resp.
`RAMP`) makes `Gen.re_config_output` fail with the domain-validity
`ValueError` before any duty (resp. symmetry) command is emitted; and
supplying a waveform that normalizes to `PULS` together with a duty
cycle succeeds whatever waveform was cached, because the waveform is
applied first. -/
theorem c3_theorem :
    ∀ (n : Nat) (cfg0 : GenConfig) (channel : Nat) (wvA : Option String)
      (fA aA oA pA dA sA : Option Rat),
      (∀ d : Rat, dA = some d →
        (wvResolve cfg0 (coerceCh n channel) wvA).1 ≠ "PULS" →
        (Gen.re_config_output n trOK cfg0 channel wvA fA aA oA pA dA sA).err =
          some GErr.valueDuty ∧
        ∀ c ∈ (Gen.re_config_output n trOK cfg0 channel wvA fA aA oA pA dA sA).writes,
          cmdF c ≠ 5) ∧
      (∀ sv : Rat, sA = some sv →
        (wvResolve cfg0 (coerceCh n channel) wvA).1 ≠ "RAMP" →
        (Gen.re_config_output n trOK cfg0 channel wvA fA aA oA pA dA sA).err.isSome ∧
        (∀ c ∈ (Gen.re_config_output n trOK cfg0 channel wvA fA aA oA pA dA sA).writes,
          cmdF c ≠ 6) ∧
        (dA = none →
          (Gen.re_config_output n trOK cfg0 channel wvA fA aA oA pA dA sA).err =
            some GErr.valueSymm)) ∧
      (∀ (s : String) (d : Rat), wvA = some s → (genWaveform s).1 = "PULS" →
        dA = some d → sA = none →
        ((getChan cfg0 (coerceCh n channel)).duty).isSome →
        (Gen.re_config_output n trOK cfg0 channel wvA fA aA oA pA dA sA).err = none) := by
  intro n cfg0 channel wvA fA aA oA pA dA sA
  have hE : (Gen.re_config_output n trOK cfg0 channel wvA fA aA oA pA dA sA).err =
      (runFields trOK 0 cfg0 (genBlocks (coerceCh n channel)
        (wvResolve cfg0 (coerceCh n channel) wvA).1 fA aA oA pA dA sA)).err := rfl
  have hWr : (Gen.re_config_output n trOK cfg0 channel wvA fA aA oA pA dA sA).writes =
      (runFields trOK 0 cfg0 (genBlocks (coerceCh n channel)
        (wvResolve cfg0 (coerceCh n channel) wvA).1 fA aA oA pA dA sA)).ws := rfl
  obtain ⟨he, hw, -⟩ := gen_run5 (coerceCh n channel)
    (wvResolve cfg0 (coerceCh n channel) wvA).1 fA aA oA pA dA sA cfg0
  refine ⟨?_, ?_, ?_⟩
  · intro d hd hwv
    subst hd
    have hact : (dutyB (coerceCh n channel)
        (some d) (wvResolve cfg0 (coerceCh n channel) wvA).1).act
        ((expW5 cfg0 (coerceCh n channel) (wvResolve cfg0 (coerceCh n channel) wvA).1
          fA aA oA pA).foldl applyW cfg0) = .fail .valueDuty := by
      simp [dutyB, hwv]
    constructor
    · rw [hE, he, runFields_fail hact trOK 0 _]
    · intro c hc
      rw [hWr, hw, runFields_fail hact trOK 0 _] at hc
      simp only [List.append_nil] at hc
      have := expW5_cmdF cfg0 (coerceCh n channel)
        (wvResolve cfg0 (coerceCh n channel) wvA).1 fA aA oA pA c hc
      omega
  · intro sv hs hwv
    subst hs
    have hact2 : ∀ cfg', (symmB (coerceCh n channel) (some sv)
        (wvResolve cfg0 (coerceCh n channel) wvA).1).act cfg' = .fail .valueSymm :=
      fun cfg' => by simp [symmB, hwv]
    refine ⟨?_, ?_, ?_⟩
    · by_contra hns
      have hnone : (Gen.re_config_output n trOK cfg0 channel wvA fA aA oA pA dA
          (some sv)).err = none := by
        cases hcase : (Gen.re_config_output n trOK cfg0 channel wvA fA aA oA pA dA
            (some sv)).err
        · rfl
        · rw [hcase] at hns
          simp at hns
      rw [hE] at hnone
      have hnec := gen_nec (coerceCh n channel)
        (wvResolve cfg0 (coerceCh n channel) wvA).1 fA aA oA pA dA (some sv) cfg0 hnone
      rcases hnec.2 with h | h
      · simp at h
      · exact hwv h
    · intro c hc
      rw [hWr, hw] at hc
      rcases List.mem_append.mp hc with hc | hc
      · have := expW5_cmdF cfg0 (coerceCh n channel)
          (wvResolve cfg0 (coerceCh n channel) wvA).1 fA aA oA pA c hc
        omega
      · cases hact : (dutyB (coerceCh n channel) dA
            (wvResolve cfg0 (coerceCh n channel) wvA).1).act
            ((expW5 cfg0 (coerceCh n channel) (wvResolve cfg0 (coerceCh n channel) wvA).1
              fA aA oA pA).foldl applyW cfg0) with
        | skip =>
          rw [runFields_skip hact trOK 0 _, runFields_fail (hact2 _) trOK 0 []] at hc
          simp at hc
        | fail e =>
          rw [runFields_fail hact trOK 0 _] at hc
          simp at hc
        | write c0 =>
          rw [runFields_write_ok hact (trOK_eq 0) _,
            runFields_fail (hact2 _) trOK 1 []] at hc
          simp at hc
          subst hc
          obtain ⟨d0, -, rfl⟩ := dutyB_writes hact
          simp [cmdF]
    · intro hdn
      subst hdn
      have hact : (dutyB (coerceCh n channel) none
          (wvResolve cfg0 (coerceCh n channel) wvA).1).act
          ((expW5 cfg0 (coerceCh n channel) (wvResolve cfg0 (coerceCh n channel) wvA).1
            fA aA oA pA).foldl applyW cfg0) = .skip := rfl
      rw [hE, he, runFields_skip hact trOK 0 _, runFields_fail (hact2 _) trOK 0 []]
  · intro s d hs hp hd hsn hkey
    subst hs
    subst hd
    subst hsn
    have hd' : (some d = none) ∨
        ((wvResolve cfg0 (coerceCh n channel) (some s)).1 = "PULS" ∧
          ((getChan cfg0 (coerceCh n channel)).duty).isSome) :=
      Or.inr ⟨hp, hkey⟩
    obtain ⟨he', -, -⟩ := gen_master (coerceCh n channel)
      (wvResolve cfg0 (coerceCh n channel) (some s)).1 fA aA oA pA (some d) none cfg0
      hd' (Or.inl rfl)
    rw [hE]
    exact he'

/-- Witness for claim C3: duty cycle rejected on cached `SIN`, symmetry
rejected on cached `SIN`, and waveform `pulse` plus duty cycle accepted
in one call on cached `SIN`. -/
theorem c3_witness :
    ((Gen.re_config_output 2 trOK cfgW 1 none none none none none (some 75) none).err =
      some GErr.valueDuty ∧
      ∀ c ∈ (Gen.re_config_output 2 trOK cfgW 1 none none none none none
        (some 75) none).writes, cmdF c ≠ 5) ∧
    ((Gen.re_config_output 2 trOK cfgW 1 none none none none none none
        (some 30)).err.isSome ∧
      (∀ c ∈ (Gen.re_config_output 2 trOK cfgW 1 none none none none none none
        (some 30)).writes, cmdF c ≠ 6) ∧
      ((none : Option Rat) = none →
        (Gen.re_config_output 2 trOK cfgW 1 none none none none none none
          (some 30)).err = some GErr.valueSymm)) ∧
    (Gen.re_config_output 2 trOK cfgW 1 (some "pulse") none none none none
      (some 75) none).err = none :=
  ⟨(c3_theorem 2 cfgW 1 none none none none none (some 75) none).1 75 rfl (by decide),
   (c3_theorem 2 cfgW 1 none none none none none none (some 30)).2.1 30 rfl (by decide),
   (c3_theorem 2 cfgW 1 (some "pulse") none none none none (some 75) none).2.2 "pulse" 75
     rfl (by decide) rfl rfl (by decide)⟩

theorem dutyFold_isSome : ∀ (devs : List GDevChan) (acc : Option Rat),
    (acc.isSome = true ∨ ∃ dv ∈ devs, dv.dutyQ.isSome = true) →
    (devs.foldl
      (fun acc d =>
        match d.dutyQ with
        | some v => some v
        | none => acc)
      acc).isSome = true := by
  intro devs
  induction devs with
  | nil =>
    intro acc h
    rcases h with h | ⟨dv, hdv, -⟩
    · exact h
    · simp at hdv
  | cons d rest ih =>
    intro acc h
    rw [List.foldl_cons]
    apply ih
    cases hq : d.dutyQ with
    | some v => exact Or.inl rfl
    | none =>
      rcases h with h | ⟨dv, hdv, hs⟩
      · exact Or.inl h
      · rcases List.mem_cons.mp hdv with rfl | hdv'
        · rw [hq] at hs
          simp at hs
        · exact Or.inr ⟨dv, hdv', hs⟩

/-- Claim C9: whenever both `duty_cycle` and `symmetry` are supplied
(in particular with the declared default arguments of
`Gen.re_config_output`, which supply 50 for both), the call raises
`ValueError`: the effective waveform cannot be both `PULS` and `RAMP`.
The general statement assumes a perfect transport and a per-channel
cache that carries the `Duty Cycle` key. -/
theorem c9_theorem :
    (∀ (n : Nat) (cfg0 : GenConfig) (channel : Nat) (wvA : Option String)
        (fA aA oA pA : Option Rat) (d sv : Rat),
      ((getChan cfg0 (coerceCh n channel)).duty).isSome →
      isValueErr (Gen.re_config_output n trOK cfg0 channel wvA fA aA oA pA
        (some d) (some sv)).err = true) ∧
    (∀ (n : Nat) (cfg0 : GenConfig) (channel : Nat),
      (Gen.re_config_output n trOK cfg0 channel (some "sin") (some 1000) (some 1)
        (some 0) (some 0) (some 50) (some 50)).err = some GErr.valueDuty) := by
  constructor
  · intro n cfg0 channel wvA fA aA oA pA d sv hkey
    have hE : (Gen.re_config_output n trOK cfg0 channel wvA fA aA oA pA
        (some d) (some sv)).err =
        (runFields trOK 0 cfg0 (genBlocks (coerceCh n channel)
          (wvResolve cfg0 (coerceCh n channel) wvA).1 fA aA oA pA
          (some d) (some sv))).err := rfl
    obtain ⟨he, -, -⟩ := gen_run5 (coerceCh n channel)
      (wvResolve cfg0 (coerceCh n channel) wvA).1 fA aA oA pA (some d) (some sv) cfg0
    rw [hE, he]
    by_cases hwv : (wvResolve cfg0 (coerceCh n channel) wvA).1 = "PULS"
    · obtain ⟨dc, hdc⟩ := Option.isSome_iff_exists.mp hkey
      have hdc5 : (getChan ((expW5 cfg0 (coerceCh n channel)
          (wvResolve cfg0 (coerceCh n channel) wvA).1 fA aA oA pA).foldl applyW cfg0)
          (coerceCh n channel)).duty = some dc := by
        rw [cfg5_pres_duty]
        exact hdc
      have hact2 : ∀ cfg', (symmB (coerceCh n channel) (some sv)
          (wvResolve cfg0 (coerceCh n channel) wvA).1).act cfg' = .fail .valueSymm :=
        fun cfg' => by simp [symmB, hwv]
      by_cases hdd : dc = d
      · have hact : (dutyB (coerceCh n channel) (some d)
            (wvResolve cfg0 (coerceCh n channel) wvA).1).act
            ((expW5 cfg0 (coerceCh n channel)
              (wvResolve cfg0 (coerceCh n channel) wvA).1 fA aA oA pA).foldl applyW
                cfg0) = .skip := by
          simp only [dutyB]
          rw [if_neg (by simp [hwv])]
          rw [hdc5]
          simp [hdd]
        rw [runFields_skip hact trOK 0 _, runFields_fail (hact2 _) trOK 0 []]
        rfl
      · have hact : (dutyB (coerceCh n channel) (some d)
            (wvResolve cfg0 (coerceCh n channel) wvA).1).act
            ((expW5 cfg0 (coerceCh n channel)
              (wvResolve cfg0 (coerceCh n channel) wvA).1 fA aA oA pA).foldl applyW
                cfg0) = .write (.duty (coerceCh n channel) d) := by
          simp only [dutyB]
          rw [if_neg (by simp [hwv])]
          rw [hdc5]
          simp [hdd]
        rw [runFields_write_ok hact (trOK_eq 0) _, runFields_fail (hact2 _) trOK 1 []]
        rfl
    · have hact : (dutyB (coerceCh n channel) (some d)
          (wvResolve cfg0 (coerceCh n channel) wvA).1).act
          ((expW5 cfg0 (coerceCh n channel)
            (wvResolve cfg0 (coerceCh n channel) wvA).1 fA aA oA pA).foldl applyW
              cfg0) = .fail .valueDuty := by
        simp [dutyB, hwv]
      rw [runFields_fail hact trOK 0 _]
      rfl
  · intro n cfg0 channel
    have hE : (Gen.re_config_output n trOK cfg0 channel (some "sin") (some 1000)
        (some 1) (some 0) (some 0) (some 50) (some 50)).err =
        (runFields trOK 0 cfg0 (genBlocks (coerceCh n channel)
          (wvResolve cfg0 (coerceCh n channel) (some "sin")).1 (some 1000) (some 1)
          (some 0) (some 0) (some 50) (some 50))).err := rfl
    obtain ⟨he, -, -⟩ := gen_run5 (coerceCh n channel)
      (wvResolve cfg0 (coerceCh n channel) (some "sin")).1 (some 1000) (some 1)
      (some 0) (some 0) (some 50) (some 50) cfg0
    have hwv : (wvResolve cfg0 (coerceCh n channel) (some "sin")).1 = "SIN" := rfl
    have hact : (dutyB (coerceCh n channel) (some 50)
        (wvResolve cfg0 (coerceCh n channel) (some "sin")).1).act
        ((expW5 cfg0 (coerceCh n channel)
          (wvResolve cfg0 (coerceCh n channel) (some "sin")).1 (some 1000) (some 1)
          (some 0) (some 0)).foldl applyW cfg0) = .fail .valueDuty := by
      simp [dutyB, hwv]
    rw [hE, he, runFields_fail hact trOK 0 _]

/-- Witness for claim C9 at concrete inputs. -/
theorem c9_witness :
    isValueErr (Gen.re_config_output 2 trOK cfgW 1 none none none none none
      (some 75) (some 30)).err = true ∧
    (Gen.re_config_output 2 trOK cfgW 1 (some "sin") (some 1000) (some 1) (some 0)
      (some 0) (some 50) (some 50)).err = some GErr.valueDuty :=
  ⟨c9_theorem.1 2 cfgW 1 none none none none none 75 30 (by decide),
   c9_theorem.2 2 cfgW 1⟩

/-- Claim C10: when the duty-cycle query succeeds for a channel,
`Gen.get_config_output` stores the parsed value under the top-level key
`Duty Cycle` instead of inside that channel's sub-dictionary, so the
channel entry lacks the key; a later `Gen.re_config_output` call on that
cache with a supplied duty cycle and effective waveform `PULS` then
fails with the missing-key error when it reads
`config_output[channel]['Duty Cycle']`. -/
theorem c10_theorem :
    ∀ (devs : List GDevChan) (ch : Nat) (dv : GDevChan) (v d : Rat)
      (fA aA oA pA sA : Option Rat),
      devs[ch - 1]? = some dv → dv.dutyQ = some v → 1 ≤ ch → ch ≤ devs.length →
      (getChan (Gen.get_config_output devs) ch).duty = none ∧
      (Gen.get_config_output devs).topDuty.isSome = true ∧
      (Gen.re_config_output devs.length trOK (Gen.get_config_output devs) ch
        (some "puls") fA aA oA pA (some d) sA).err = some GErr.keyDuty := by
  intro devs ch dv v d fA aA oA pA sA hdv hq h1 h2
  have hdutyNone : (getChan (Gen.get_config_output devs) ch).duty = none := by
    simp [Gen.get_config_output, getChan, hdv, getChanConf, hq]
  refine ⟨hdutyNone, ?_, ?_⟩
  · apply dutyFold_isSome
    refine Or.inr ⟨dv, ?_, by simp [hq]⟩
    exact List.getElem?_mem hdv
  · have hco : coerceCh devs.length ch = ch := by
      unfold coerceCh
      rw [if_pos ⟨h1, h2⟩]
    have hE : (Gen.re_config_output devs.length trOK (Gen.get_config_output devs) ch
        (some "puls") fA aA oA pA (some d) sA).err =
        (runFields trOK 0 (Gen.get_config_output devs)
          (genBlocks (coerceCh devs.length ch)
            (wvResolve (Gen.get_config_output devs) (coerceCh devs.length ch)
              (some "puls")).1 fA aA oA pA (some d) sA)).err := rfl
    have hwv : (wvResolve (Gen.get_config_output devs) (coerceCh devs.length ch)
        (some "puls")).1 = "PULS" := rfl
    rw [hE, hco] at *
    rw [hwv] at *
    obtain ⟨he, -, -⟩ := gen_run5 ch "PULS" fA aA oA pA (some d) sA
      (Gen.get_config_output devs)
    have hdc5 : (getChan ((expW5 (Gen.get_config_output devs) ch "PULS"
        fA aA oA pA).foldl applyW (Gen.get_config_output devs)) ch).duty = none := by
      rw [cfg5_pres_duty]
      exact hdutyNone
    have hact : (dutyB ch (some d) "PULS").act
        ((expW5 (Gen.get_config_output devs) ch "PULS" fA aA oA pA).foldl applyW
          (Gen.get_config_output devs)) = .fail .keyDuty := by
      simp only [dutyB]
      rw [if_neg (by simp)]
      rw [hdc5]
    rw [he, runFields_fail hact trOK 0 _]

/-- Witness for claim C10 on a one-channel device whose duty-cycle query
succeeds. -/
theorem c10_witness :
    (getChan (Gen.get_config_output [⟨true, "SIN", 1000, 1, 0, 0, some 50, some 50⟩])
      1).duty = none ∧
    (Gen.get_config_output
      [⟨true, "SIN", 1000, 1, 0, 0, some 50, some 50⟩]).topDuty.isSome = true ∧
    (Gen.re_config_output
      [(⟨true, "SIN", 1000, 1, 0, 0, some 50, some 50⟩ : GDevChan)].length trOK
      (Gen.get_config_output [⟨true, "SIN", 1000, 1, 0, 0, some 50, some 50⟩]) 1
      (some "puls") none none none none (some 75) none).err = some GErr.keyDuty :=
  c10_theorem [⟨true, "SIN", 1000, 1, 0, 0, some 50, some 50⟩] 1
    ⟨true, "SIN", 1000, 1, 0, 0, some 50, some 50⟩ 50 75 none none none none none
    (by decide) (by decide) (by decide) (by decide)
